import Mathlib

/-!
Verification development for the document-to-issue segmentation and
classification engine of the jira-ticket-master repository
(`comprehensive_document_analyzer.py`, with the per-invocation extraction
state of `extract_comprehensive_content` and the image registry produced by
`extract_word_content.extract_images_from_docx`).

The Python code is shallowly embedded: dictionaries become structures,
the segmentation loop becomes a fold over the content-block list, and the
one exception that can escape `create_comprehensive_issues`
(`ZeroDivisionError` from `i % len(issues)` when distributing unlinked
images over zero issues) is modelled by an `Option` result.

String-handling helpers mirror the corresponding Python `str` methods.
`lower`/`isupper`/`title` are modelled at ASCII precision (Python's
versions also case-map non-ASCII letters); every keyword the analyzer
matches against is ASCII, so the behaviour relevant here coincides.
Note that the source file stores its non-ASCII literals in a doubly
UTF-8-encoded form (e.g. the bullet glyph list is `('‚Ä¢', '-', '‚ó¶',
'‚ñ™', '‚ñ´')`); the embedding reproduces those literals codepoint for
codepoint via `\u` escapes.
-/

/-- Boolean infix test on character lists: a prefix match at some start
position. -/
def infixAux (n : List Char) : List Char → Bool
  | [] => n.isEmpty
  | c :: t => n.isPrefixOf (c :: t) || infixAux n t

/-- Python `needle in hay` on strings (substring containment). -/
def substrB (needle hay : String) : Bool :=
  infixAux needle.data hay.data

/-- Python `hay.startswith(p)`. -/
def startsWithB (p hay : String) : Bool :=
  p.data.isPrefixOf hay.data

/-- Python `hay.endswith(p)`. -/
def endsWithB (p hay : String) : Bool :=
  p.data.isSuffixOf hay.data

/-- Python `s.lower()` (ASCII case mapping). -/
def pyLower (s : String) : String :=
  String.mk (s.data.map Char.toLower)

/-- Python `s.strip()`: drop leading and trailing whitespace. -/
def pyStrip (s : String) : String :=
  String.mk (((s.data.dropWhile Char.isWhitespace).reverse.dropWhile
      Char.isWhitespace).reverse)

/-- Python `s.isupper()` (ASCII approximation: at least one letter and no
lowercase letter). -/
def pyIsUpper (s : String) : Bool :=
  s.data.any Char.isAlpha && s.data.all (fun c => !c.isLower)

/-- Helper for the regex `^\d+\.`: after the first digit, further digits
followed by a literal dot. -/
def numberedTail : List Char → Bool
  | [] => false
  | c :: cs => if c.isDigit then numberedTail cs else decide (c = '.')

/-- Python `re.match(r'^\d+\.', s)` viewed as a Boolean test. -/
def matchNumbered (s : String) : Bool :=
  match s.data with
  | [] => false
  | c :: cs => c.isDigit && numberedTail cs

/-- Python `sep.join(parts)`. -/
def pyJoin (sep : String) : List String → String
  | [] => ""
  | [x] => x
  | x :: y :: xs => x ++ sep ++ pyJoin sep (y :: xs)

/-- Helper for Python `s.split()`: split on whitespace runs, dropping
empty words. `acc` holds the current word reversed. -/
def wordsAux : List Char → List Char → List String
  | [], acc => if acc.isEmpty then [] else [String.mk acc.reverse]
  | c :: cs, acc =>
      if c.isWhitespace then
        if acc.isEmpty then wordsAux cs [] else String.mk acc.reverse :: wordsAux cs []
      else wordsAux cs (c :: acc)

/-- Python `s.split()` with no argument. -/
def pyWords (s : String) : List String :=
  wordsAux s.data []

/-- Helper for Python `s.title()`: `prevCased` records whether the previous
character was a letter. -/
def pyTitleAux : Bool → List Char → List Char
  | _, [] => []
  | prevCased, c :: cs =>
      let cased := c.isAlpha
      (if cased then (if prevCased then c.toLower else c.toUpper) else c) ::
        pyTitleAux cased cs

/-- Python `s.title()` (ASCII approximation). -/
def pyTitle (s : String) : String :=
  String.mk (pyTitleAux false s.data)

/-- Helper for Python `f"{n:,}"`: group a reversed digit list in threes. -/
def commaGroupRev : List Char → List Char
  | [] => []
  | [a] => [a]
  | [a, b] => [a, b]
  | [a, b, c] => [a, b, c]
  | a :: b :: c :: d :: rest => a :: b :: c :: ',' :: commaGroupRev (d :: rest)

/-- Python `f"{n:,}"`: decimal rendering with thousands separators. -/
def pyComma (n : Nat) : String :=
  String.mk (commaGroupRev (toString n).data.reverse).reverse

/-- Digit-list to number, for the `(\d+)` group of `get_heading_level`. -/
def digitsToNat (ds : List Char) : Nat :=
  ds.foldl (fun acc c => 10 * acc + (c.toNat - 48)) 0

/-! ## Data model -/

/-- Link records produced by `extract_hyperlinks_from_paragraph`:
`{'text': ..., 'url': ..., 'type': ...}`. -/
structure Link where
  text : String
  url : String
  ltype : String
  deriving DecidableEq

/-- One table cell as stored in `table_data['rows']`:
`{'text': cell_text, 'links': cell_links}`. -/
structure Cell where
  text : String
  links : List Link
  deriving DecidableEq

/-- The dictionary built by `extract_table_data`. -/
structure TableData where
  number : Nat
  rows : List (List Cell)
  headers : List String
  formatted_text : String
  rowCount : Nat
  colCount : Nat
  deriving DecidableEq

/-- Image registry entries from `extract_images_from_docx`:
`{'filename': ..., 'path': ..., 'size': ...}`. -/
structure ExtractedImage where
  filename : String
  path : String
  size : Nat
  deriving DecidableEq

instance : Inhabited ExtractedImage := ⟨⟨"", "", 0⟩⟩

/-- A content block as built by `extract_comprehensive_content`. The Python
dict stores `image_ref` as the string `f"image_{image_counter}"`; since the
only consumer parses the numeral back out (`int(ref.split('_')[1])`), the
embedding stores the ordinal directly as an `Option Nat`. -/
structure ContentBlock where
  btype : String
  content : String
  has_image : Bool
  image_ref : Option Nat
  links : List Link
  style : Option String
  alignment : Option String
  level : Nat
  table_data : Option TableData
  deriving DecidableEq

/-- One structured task proposed by the LLM collaborator
(`ai_document_analyzer.analyze_document_with_ai`). -/
structure Insight where
  title : String
  description : String
  priority : String
  complexity : String
  category : String
  deriving DecidableEq

/-- The analyzer instance state relevant to the core: the four accumulator
attributes set in `ComprehensiveDocumentAnalyzer.__init__`. -/
structure AnalyzerState where
  content_blocks : List ContentBlock
  extracted_images : List ExtractedImage
  extracted_links : List Link
  extracted_tables : List TableData
  deriving DecidableEq

/-! ## Element classifier -/

/-- Bullet glyph tuple of `classify_paragraph_type` (line 288), exactly as
the doubly-encoded source literals. -/
def classifyBullets : List String :=
  ["‚Ä¢", "-", "‚ó¶", "‚ñ™",
   "‚ñ´"]

/-- Python `classify_paragraph_type(self, paragraph, text)` (lines
270-299). `style` is `paragraph.style.name` when a style is present. -/
def classify_paragraph_type (style : Option String) (text : String) : String :=
  if text = "" then "empty"
  else
    let style_name := pyLower (style.getD "")
    if substrB "heading" style_name then "heading"
    else if substrB "title" style_name then "title"
    else if substrB "subtitle" style_name then "subtitle"
    else if substrB "list paragraph" style_name then "list_item"
    else if classifyBullets.any (fun p => startsWithB p text) then "bullet_point"
    else if matchNumbered (pyStrip text) then "numbered_list"
    else if endsWithB ":" text && decide (text.length < 100) then "label"
    else if decide (text.length < 50) && pyIsUpper text then "section_header"
    else if startsWithB (String.mk (List.replicate 10 '-')) text then "separator"
    else "text"

/-- Regex search for `heading\s*(\d+)` over a character list: try each
start position left to right. -/
def headingLevelSearch : List Char → Option Nat
  | [] => none
  | c :: rest =>
      if ("heading".data).isPrefixOf (c :: rest) then
        let after := ((c :: rest).drop 7).dropWhile Char.isWhitespace
        let ds := after.takeWhile Char.isDigit
        if ds.isEmpty then headingLevelSearch rest else some (digitsToNat ds)
      else headingLevelSearch rest

/-- Python `get_heading_level` (lines 301-308). -/
def get_heading_level (style : Option String) : Nat :=
  match style with
  | some st =>
      if substrB "heading" (pyLower st) then
        match headingLevelSearch (pyLower st).data with
        | some n => n
        | none => 0
      else 0
  | none => 0

/-! ## Categorizer (`categorize_content_intelligently`, lines 352-444) -/

/-- Document context accumulator of the first categorization pass. -/
structure DocumentContext where
  headings : List String
  titles : List String
  current_section : String
  deriving DecidableEq

/-- Test a keyword list against a string, Python
`any(keyword in s for keyword in kws)`. -/
def anyKeyword (kws : List String) (s : String) : Bool :=
  kws.any (fun k => substrB k s)

/-- Section update of the first pass (lines 374-386). -/
def updateSection (content_lower : String) (sec : String) : String :=
  if anyKeyword ["mobile", "smartphone", "phone"] content_lower then "mobile_context"
  else if anyKeyword ["desktop", "computer", "pc"] content_lower then "desktop_context"
  else if anyKeyword ["homepage", "home page"] content_lower then "homepage"
  else if anyKeyword ["about", "√ºber uns"] content_lower then "about"
  else if anyKeyword ["news", "feed", "articles"] content_lower then "news"
  else if anyKeyword ["contact", "kontakt"] content_lower then "contact"
  else sec

/-- First pass over the blocks (lines 362-386). -/
def buildContext (content_blocks : List ContentBlock) : DocumentContext :=
  content_blocks.foldl
    (fun ctx b =>
      if b.btype = "heading" ∨ b.btype = "title" ∨ b.btype = "section_header" then
        let cl := pyLower b.content
        { headings := ctx.headings ++ [cl],
          titles := ctx.titles ++ [cl],
          current_section := updateSection cl ctx.current_section }
      else ctx)
    ⟨[], [], "general"⟩

/-- The category bucket lists, one field per
`categories[axis][bucket]` list of the source dict (lines 354-359). -/
structure Categories where
  device_mobile : List ContentBlock := []
  device_desktop : List ContentBlock := []
  device_both : List ContentBlock := []
  page_homepage : List ContentBlock := []
  page_about : List ContentBlock := []
  page_news : List ContentBlock := []
  page_contact : List ContentBlock := []
  page_general : List ContentBlock := []
  comp_carousel : List ContentBlock := []
  comp_navigation : List ContentBlock := []
  comp_images : List ContentBlock := []
  comp_forms : List ContentBlock := []
  comp_layout : List ContentBlock := []
  it_bug : List ContentBlock := []
  it_improvement : List ContentBlock := []
  it_feature : List ContentBlock := []
  it_content : List ContentBlock := []
  deriving DecidableEq

/-- Second categorization pass for one block (lines 392-442). -/
def categorizeStep (all_context_text current_section : String)
    (cats : Categories) (b : ContentBlock) : Categories :=
  let content := pyLower b.content
  let cc := content ++ " " ++ all_context_text
  let cats :=
    if anyKeyword ["mobile", "smartphone", "phone", "responsive"] cc then
      { cats with device_mobile := cats.device_mobile ++ [b] }
    else if anyKeyword ["desktop", "computer", "pc", "large screen"] cc then
      { cats with device_desktop := cats.device_desktop ++ [b] }
    else { cats with device_both := cats.device_both ++ [b] }
  let cats :=
    if anyKeyword ["homepage", "home page", "main page", "landing"] cc then
      { cats with page_homepage := cats.page_homepage ++ [b] }
    else if anyKeyword ["about", "√ºber uns", "about us"] cc then
      { cats with page_about := cats.page_about ++ [b] }
    else if anyKeyword ["news", "feed", "articles", "blog"] cc then
      { cats with page_news := cats.page_news ++ [b] }
    else if anyKeyword ["contact", "kontakt"] cc then
      { cats with page_contact := cats.page_contact ++ [b] }
    else if current_section = "homepage" then
      { cats with page_homepage := cats.page_homepage ++ [b] }
    else if current_section = "about" then
      { cats with page_about := cats.page_about ++ [b] }
    else if current_section = "news" then
      { cats with page_news := cats.page_news ++ [b] }
    else if current_section = "contact" then
      { cats with page_contact := cats.page_contact ++ [b] }
    else { cats with page_general := cats.page_general ++ [b] }
  let cats :=
    if anyKeyword ["carousel", "slider", "slideshow"] cc then
      { cats with comp_carousel := cats.comp_carousel ++ [b] }
    else if anyKeyword ["navigation", "menu", "nav", "arrows"] cc then
      { cats with comp_navigation := cats.comp_navigation ++ [b] }
    else if anyKeyword ["image", "picture", "photo", "quality"] cc then
      { cats with comp_images := cats.comp_images ++ [b] }
    else if anyKeyword ["form", "input", "field"] cc then
      { cats with comp_forms := cats.comp_forms ++ [b] }
    else if anyKeyword ["layout", "display", "positioning", "alignment"] cc then
      { cats with comp_layout := cats.comp_layout ++ [b] }
    else cats
  if anyKeyword ["error", "broken", "not working", "duplicated", "missing"] cc then
    { cats with it_bug := cats.it_bug ++ [b] }
  else if anyKeyword ["improve", "optimize", "better", "enhance"] cc then
    { cats with it_improvement := cats.it_improvement ++ [b] }
  else if anyKeyword ["add", "new", "create", "implement"] cc then
    { cats with it_feature := cats.it_feature ++ [b] }
  else { cats with it_content := cats.it_content ++ [b] }

/-- Python `categorize_content_intelligently` (lines 352-444). -/
def categorize_content_intelligently (content_blocks : List ContentBlock) :
    Categories :=
  let ctx := buildContext content_blocks
  let all_context_text := pyJoin " " (ctx.headings ++ ctx.titles)
  content_blocks.foldl (categorizeStep all_context_text ctx.current_section) {}

/-- Bucket name lists in the dict insertion order used when iterating
`categories.items()` in `get_block_categories`. -/
def categoriesAxes (cats : Categories) :
    List (String × List (String × List ContentBlock)) :=
  [("device",
    [("mobile", cats.device_mobile), ("desktop", cats.device_desktop),
     ("both", cats.device_both)]),
   ("page_type",
    [("homepage", cats.page_homepage), ("about", cats.page_about),
     ("news", cats.page_news), ("contact", cats.page_contact),
     ("general", cats.page_general)]),
   ("component",
    [("carousel", cats.comp_carousel), ("navigation", cats.comp_navigation),
     ("images", cats.comp_images), ("forms", cats.comp_forms),
     ("layout", cats.comp_layout)]),
   ("issue_type",
    [("bug", cats.it_bug), ("improvement", cats.it_improvement),
     ("feature", cats.it_feature), ("content", cats.it_content)])]

/-- Python `get_block_categories` (lines 579-589): first bucket of each
axis whose list contains the block. -/
def get_block_categories (b : ContentBlock) (cats : Categories) :
    List (String × String) :=
  (categoriesAxes cats).foldl
    (fun acc ax =>
      match ax.2.find? (fun g => g.2.contains b) with
      | some g => acc ++ [(ax.1, g.1)]
      | none => acc)
    []

/-! ## Issue records -/

/-- An in-progress issue, the `current_issue` dict (lines 528-536). -/
structure IssueInProgress where
  title : String
  description_parts : List String
  images : List ExtractedImage
  links : List Link
  tables : List TableData
  content_blocks : List ContentBlock
  categories : List (String × String)
  deriving DecidableEq

/-- A finalized issue, the return value of `finalize_issue`
(lines 636-644). -/
structure FinalIssue where
  title : String
  description : String
  images : List ExtractedImage
  links : List Link
  tables : List TableData
  categories : List (String × String)
  content_blocks : Nat
  deriving DecidableEq

/-- Emoji lookup `link_type_emoji.get(link['type'], default)` of line 616;
the values are the doubly-encoded emoji literals of the source. -/
def linkEmoji (t : String) : String :=
  if t = "video" then "üé•"
  else if t = "document" then "üìÑ"
  else if t = "image" then "üñºÔ∏è"
  else if t = "external" then "üåê"
  else if t = "internal" then "üîó"
  else "üîó"

/-- Python `finalize_issue` (lines 591-644). The `categories` parameter is
accepted and unused, exactly as in the source (which reads the categories
stored on the issue instead). -/
def finalize_issue (issue_data : IssueInProgress) (categories : Categories)
    (ai_insights : Option (List Insight)) : FinalIssue :=
  let parts := issue_data.description_parts
  let parts := parts ++
    (if issue_data.categories.isEmpty then []
     else
       "\n## üìã **Issue Classification:**" ::
         issue_data.categories.map
           (fun ct => "- **" ++ pyTitle ct.1 ++ "**: " ++ pyTitle ct.2))
  let parts := parts ++
    (if issue_data.tables.isEmpty then []
     else
       "\n## üìä **Tables:**" ::
         (issue_data.tables.enum.flatMap
           (fun it =>
             ["\n### Table " ++ toString (it.1 + 1) ++ " (" ++
                toString it.2.rowCount ++ "x" ++ toString it.2.colCount ++ "):",
              "```" ++ "\n" ++ it.2.formatted_text ++ "\n" ++ "```"])))
  let parts := parts ++
    (if issue_data.links.isEmpty then []
     else
       "\n## üîó **Related Links:**" ::
         issue_data.links.map
           (fun l => "- " ++ linkEmoji l.ltype ++ " [" ++ l.text ++ "](" ++
             l.url ++ ") (" ++ l.ltype ++ ")"))
  let parts := parts ++
    (if issue_data.images.isEmpty then []
     else
       "\n## üì∏ **Attached Images:**" ::
         issue_data.images.map
           (fun img => "- " ++ img.filename ++ " (" ++ pyComma img.size ++
             " bytes)"))
  let parts := parts ++
    (match ai_insights with
     | none => []
     | some tasks =>
         match tasks.find?
             (fun t =>
               ((pyWords (pyLower issue_data.title)).take 3).any
                 (fun kw => substrB kw (pyLower t.title))) with
         | none => []
         | some t =>
             ["\n## ü§ñ **AI Analysis:**",
              "- **Priority**: " ++ t.priority,
              "- **Complexity**: " ++ t.complexity,
              "- **Category**: " ++ t.category])
  { title := issue_data.title,
    description := pyJoin "\n" parts,
    images := issue_data.images,
    links := issue_data.links,
    tables := issue_data.tables,
    categories := issue_data.categories,
    content_blocks := issue_data.content_blocks.length }

/-! ## Segmentation engine (`create_comprehensive_issues`, lines 446-577) -/

/-- Lines 450-460: `ai_insights` stays `None` unless the collaborator is
available (`none` outcome) and its call returns normally (`Except.ok`);
an exception from `analyze_document_with_ai` is caught and leaves
`ai_insights` as `None`. -/
def resolveInsights (aiOutcome : Option (Except String (List Insight))) :
    Option (List Insight) :=
  match aiOutcome with
  | some (Except.ok l) => some l
  | _ => none

/-- Kinds skipped at lines 478-483: headings and titles never open or
close an issue. -/
def isHeadingKind (t : String) : Prop :=
  t = "heading" ∨ t = "title" ∨ t = "section_header"

instance (t : String) : Decidable (isHeadingKind t) := by
  unfold isHeadingKind; infer_instance

/-- Condition of lines 494-498: short content and boilerplate labels are
context, never issue starters. The literals are the doubly-encoded source
strings. -/
def isShortOrBoiler (content : String) : Bool :=
  decide (content.length < 15) ||
  endsWithB "| Homecare" content ||
  startsWithB "Patient:" content ||
  startsWithB "Fachkr√§fte" content ||
  ["Austria | Homecare", "Patient:innen | Homecare",
   "Fachkr√§fte | Homecare"].contains content

/-- Bullet glyph tuple of line 515 (three glyphs only). -/
def newIssueBullets : List String :=
  ["‚Ä¢", "-", "‚ó¶"]

/-- Keyword list of lines 517-518. -/
def newIssueKeywords : List String :=
  ["fix the", "resolve the", "update the", "correct the", "improve the",
   "implement", "display", "optimal", "space", "cut off", "jump"]

/-- The `is_new_issue` decision (lines 506-520). -/
def is_new_issue (b : ContentBlock) (content : String)
    (current_issue : Option IssueInProgress) : Bool :=
  b.btype == "numbered_list" ||
  (b.btype == "list_item" && decide (content.length > 20)) ||
  (decide (content.length > 30) &&
   !(newIssueBullets.any (fun p => startsWithB p content)) &&
   anyKeyword newIssueKeywords (pyLower content) &&
   (current_issue.isNone ||
    (match current_issue with
     | some ci => decide (ci.description_parts.length > 4)
     | none => true)))

/-- Lines 480-482 / 499-502 / 538-541: append context to the open issue if
one exists, otherwise leave the state unchanged. -/
def appendContext (ci : IssueInProgress) (content : String)
    (b : ContentBlock) : IssueInProgress :=
  { ci with description_parts := ci.description_parts ++ [content],
            content_blocks := ci.content_blocks ++ [b] }

/-- The fresh `current_issue` dict of lines 528-536. -/
def mkNewIssue (b : ContentBlock) (content : String) (cats : Categories) :
    IssueInProgress :=
  { title := String.mk (content.data.take 100) ++
      (if decide (content.length > 100) then "..." else ""),
    description_parts := [content],
    images := [],
    links := [],
    tables := [],
    content_blocks := [b],
    categories := get_block_categories b cats }

/-- Finalize the open issue if any (used at separators, new-issue starts
and after the loop). -/
def finalizeOpt (cur : Option IssueInProgress) (cats : Categories)
    (ai : Option (List Insight)) : List FinalIssue :=
  match cur with
  | some ci => [finalize_issue ci cats ai]
  | none => []

/-- The open/append decision of lines 506-541, producing the issue list
and open issue after the text handling of one main-path block. -/
def segmentPart (cats : Categories) (ai : Option (List Insight))
    (st : List FinalIssue × Option IssueInProgress) (b : ContentBlock)
    (content : String) : List FinalIssue × Option IssueInProgress :=
  if is_new_issue b content st.2 || st.2.isNone then
    (st.1 ++ finalizeOpt st.2 cats ai, some (mkNewIssue b content cats))
  else
    match st.2 with
    | some ci => (st.1, some (appendContext ci content b))
    | none => st

/-- Image linking of lines 543-550: resolve the 1-based ordinal against
the registry and append the image to the open issue. -/
def linkImage (images : List ExtractedImage) (b : ContentBlock)
    (cur : Option IssueInProgress) : Option IssueInProgress :=
  match cur with
  | none => none
  | some ci =>
      match b.image_ref with
      | none => some ci
      | some n =>
          if b.has_image ∧ 0 < n ∧ n ≤ images.length then
            some { ci with images := ci.images ++ [images.getD (n - 1) default] }
          else some ci

/-- Link attachment of lines 552-553. -/
def addLinks (b : ContentBlock) (cur : Option IssueInProgress) :
    Option IssueInProgress :=
  if b.links.isEmpty then cur
  else
    match cur with
    | some ci => some { ci with links := ci.links ++ b.links }
    | none => none

/-- Table attachment of lines 555-556. -/
def addTable (b : ContentBlock) (cur : Option IssueInProgress) :
    Option IssueInProgress :=
  match b.table_data with
  | some td =>
      (match cur with
       | some ci => some { ci with tables := ci.tables ++ [td] }
       | none => none)
  | none => cur

/-- Artifact attachment of lines 543-556 in source order: image, links,
table. -/
def artifactPart (images : List ExtractedImage) (b : ContentBlock)
    (cur : Option IssueInProgress) : Option IssueInProgress :=
  addTable b (addLinks b (linkImage images b cur))

/-- One iteration of the `for block in content_blocks` loop
(lines 470-556). -/
def processBlock (images : List ExtractedImage) (cats : Categories)
    (ai : Option (List Insight))
    (st : List FinalIssue × Option IssueInProgress) (b : ContentBlock) :
    List FinalIssue × Option IssueInProgress :=
  let content := b.content
  if pyStrip content = "" then st
  else if isHeadingKind b.btype then
    (match st.2 with
     | some ci => (st.1, some (appendContext ci content b))
     | none => st)
  else if b.btype = "separator" then
    (match st.2 with
     | some ci => (st.1 ++ [finalize_issue ci cats ai], none)
     | none => st)
  else if isShortOrBoiler content then
    (match st.2 with
     | some ci => (st.1, some (appendContext ci content b))
     | none => st)
  else
    let r := segmentPart cats ai st b content
    (r.1, artifactPart images b r.2)

/-- Round-robin distribution of unlinked images (lines 571-574). Each step
indexes `issues[i % len(issues)]`; the `none` branch of the lookup is
unreachable while the accumulator is non-empty. -/
def distStep (acc : List FinalIssue) (p : Nat × ExtractedImage) :
    List FinalIssue :=
  match acc.get? (p.1 % acc.length) with
  | some iss =>
      acc.set (p.1 % acc.length) { iss with images := iss.images ++ [p.2] }
  | none => acc

/-- Python loop `for i, img in enumerate(unlinked_images)` of
lines 571-574. -/
def distributeRR (issues : List FinalIssue)
    (unlinked : List ExtractedImage) : List FinalIssue :=
  unlinked.enum.foldl distStep issues

/-- Python `create_comprehensive_issues` (lines 446-577). The result is
`none` exactly when the Python function raises `ZeroDivisionError`
(unlinked images left while `issues` is empty, line 572). -/
def create_comprehensive_issues (self : AnalyzerState)
    (aiOutcome : Option (Except String (List Insight)))
    (content_blocks : List ContentBlock) : Option (List FinalIssue) :=
  let ai_insights := resolveInsights aiOutcome
  let cats := categorize_content_intelligently content_blocks
  let p := content_blocks.foldl
    (processBlock self.extracted_images cats ai_insights) ([], none)
  let issues := p.1 ++ finalizeOpt p.2 cats ai_insights
  let linked := issues.foldl
    (fun acc iss => acc ++ iss.images.map (fun img => img.filename)) []
  let unlinked := self.extracted_images.filter
    (fun img => !(linked.contains img.filename))
  if unlinked.isEmpty then some issues
  else if issues.isEmpty then none
  else some (distributeRR issues unlinked)

/-! ## Content extraction (`extract_comprehensive_content`, lines 187-268)

The docx parsing itself (paragraph runs, style objects, hyperlink
relationships, table cells) is the external Content Extractor collaborator;
a parsed document is modelled as an ordered list of raw elements carrying
exactly the data the loop of lines 208-262 reads from each `CT_P`/`CT_Tbl`
element. -/

/-- One raw document element: a paragraph (its text, style name,
alignment, extracted hyperlinks, and the number of image-bearing runs) or
a table (its cell grid and column count). -/
inductive RawElement where
  | para (text : String) (style : Option String) (alignment : Option String)
      (links : List Link) (imageRuns : Nat)
  | table (rows : List (List Cell)) (cols : Nat)
  deriving DecidableEq

/-- Python `extract_table_data` (lines 310-350). -/
def extract_table_data (rows : List (List Cell)) (cols : Nat)
    (table_number : Nat) : TableData :=
  { number := table_number,
    rows := rows,
    headers := (rows.headD []).map (fun c => c.text),
    formatted_text :=
      pyJoin "\n" (rows.map (fun r => pyJoin " | " (r.map (fun c => c.text)))),
    rowCount := rows.length,
    colCount := if rows.isEmpty then 0 else cols }

/-- One iteration of the element loop of lines 208-262. The state carries
the analyzer instance plus the loop-local `image_counter` and
`table_counter`. -/
def extractStep (st : AnalyzerState × Nat × Nat) (el : RawElement) :
    AnalyzerState × Nat × Nat :=
  match el with
  | RawElement.para rawText style alignment links imageRuns =>
      let text := pyStrip rawText
      let a := st.1
      let a := if links.isEmpty then a
        else { a with extracted_links := a.extracted_links ++ links }
      let has_images := decide (0 < imageRuns)
      let ic := st.2.1 + imageRuns
      let ptype := classify_paragraph_type style text
      if text ≠ "" ∨ has_images = true ∨ ¬links.isEmpty then
        ({ a with content_blocks := a.content_blocks ++
            [{ btype := ptype, content := text, has_image := has_images,
               image_ref := if has_images then some ic else none,
               links := links, style := style, alignment := alignment,
               level := get_heading_level style, table_data := none }] },
         ic, st.2.2)
      else (a, ic, st.2.2)
  | RawElement.table rows cols =>
      let a := st.1
      let tc := st.2.2 + 1
      let td := extract_table_data rows cols tc
      ({ a with
          extracted_tables := a.extracted_tables ++ [td],
          content_blocks := a.content_blocks ++
            [{ btype := "table", content := td.formatted_text,
               has_image := false, image_ref := none, links := [],
               style := none, alignment := none, level := 0,
               table_data := some td }] },
       st.2.1, tc)

/-- Python `extract_comprehensive_content` (lines 187-268). `docImages` is
the registry returned by `extract_images_from_docx` (line 198, success
path). Note that only `content_blocks` (line 192) and `extracted_images`
(line 198) are reassigned before the loop; `extracted_links` and
`extracted_tables` keep whatever the instance already accumulated. -/
def extract_comprehensive_content (self : AnalyzerState)
    (docImages : List ExtractedImage) (doc : List RawElement) :
    AnalyzerState :=
  let st0 : AnalyzerState :=
    { self with content_blocks := [], extracted_images := docImages }
  (doc.foldl extractStep (st0, 0, 0)).1

/-! ## Helper lemmas -/

/-- Projections of `finalize_issue`: every field except the description is
copied from the in-progress issue. -/
theorem finalize_issue_title (ci : IssueInProgress) (cats : Categories)
    (ai : Option (List Insight)) : (finalize_issue ci cats ai).title = ci.title := rfl

theorem finalize_issue_images (ci : IssueInProgress) (cats : Categories)
    (ai : Option (List Insight)) : (finalize_issue ci cats ai).images = ci.images := rfl

theorem finalize_issue_links (ci : IssueInProgress) (cats : Categories)
    (ai : Option (List Insight)) : (finalize_issue ci cats ai).links = ci.links := rfl

theorem finalize_issue_content_blocks (ci : IssueInProgress) (cats : Categories)
    (ai : Option (List Insight)) :
    (finalize_issue ci cats ai).content_blocks = ci.content_blocks.length := rfl

/-- Frame relation between an issue before and after image distribution:
every field is unchanged except that images may have been appended. -/
def frameEq (a b : FinalIssue) : Prop :=
  b.title = a.title ∧ b.description = a.description ∧ b.links = a.links ∧
  b.tables = a.tables ∧ b.categories = a.categories ∧
  b.content_blocks = a.content_blocks ∧ ∃ l, b.images = a.images ++ l

theorem frameEq_refl (a : FinalIssue) : frameEq a a :=
  ⟨rfl, rfl, rfl, rfl, rfl, rfl, [], by simp⟩

theorem frameEq_trans {a b c : FinalIssue} (h1 : frameEq a b)
    (h2 : frameEq b c) : frameEq a c := by
  obtain ⟨t1, d1, l1, tb1, c1, n1, x1, i1⟩ := h1
  obtain ⟨t2, d2, l2, tb2, c2, n2, x2, i2⟩ := h2
  exact ⟨t2.trans t1, d2.trans d1, l2.trans l1, tb2.trans tb1, c2.trans c1,
    n2.trans n1, x1 ++ x2, by rw [i2, i1, List.append_assoc]⟩

theorem forall₂_frameEq_refl (l : List FinalIssue) : List.Forall₂ frameEq l l :=
  List.forall₂_same.2 (fun x _ => frameEq_refl x)

theorem forall₂_frameEq_trans : ∀ {a b c : List FinalIssue},
    List.Forall₂ frameEq a b → List.Forall₂ frameEq b c →
    List.Forall₂ frameEq a c := by
  intro a b c h1 h2
  induction h1 generalizing c with
  | nil => cases h2; exact List.Forall₂.nil
  | cons hxy _ ih =>
      cases h2 with
      | cons hyz htail => exact List.Forall₂.cons (frameEq_trans hxy hyz) (ih htail)

/-- Setting index `i` to a version of its current entry with extra images
appended is a frame-preserving update. -/
theorem forall₂_frameEq_set : ∀ (l : List FinalIssue) (i : Nat)
    (iss : FinalIssue) (img : ExtractedImage), l.get? i = some iss →
    List.Forall₂ frameEq l (l.set i { iss with images := iss.images ++ [img] }) := by
  intro l
  induction l with
  | nil => intro i iss img h; simp at h
  | cons hd tl ih =>
      intro i iss img h
      cases i with
      | zero =>
          simp only [List.get?] at h
          injection h with h
          subst h
          exact List.Forall₂.cons ⟨rfl, rfl, rfl, rfl, rfl, rfl, [img], rfl⟩
            (forall₂_frameEq_refl tl)
      | succ j =>
          simp only [List.get?] at h
          exact List.Forall₂.cons (frameEq_refl hd) (ih j iss img h)

theorem distStep_frame (acc : List FinalIssue) (p : Nat × ExtractedImage) :
    List.Forall₂ frameEq acc (distStep acc p) := by
  unfold distStep
  cases h : acc.get? (p.1 % acc.length) with
  | none => exact forall₂_frameEq_refl acc
  | some iss => exact forall₂_frameEq_set acc _ iss p.2 h

theorem foldl_distStep_frame : ∀ (l : List (Nat × ExtractedImage))
    (acc : List FinalIssue), List.Forall₂ frameEq acc (l.foldl distStep acc) := by
  intro l
  induction l with
  | nil => intro acc; exact forall₂_frameEq_refl acc
  | cons p ps ih =>
      intro acc
      exact forall₂_frameEq_trans (distStep_frame acc p) (ih (distStep acc p))

theorem distributeRR_frame (issues : List FinalIssue)
    (unlinked : List ExtractedImage) :
    List.Forall₂ frameEq issues (distributeRR issues unlinked) :=
  foldl_distStep_frame unlinked.enum issues

/-! ## Claim C2 -/

/-- C2 counterexample: the paragraph text `"----------end"` is non-empty,
its style name `"Normal"` contains none of the classifier's style
keywords, and the text starts with ten consecutive dashes, yet
`classify_paragraph_type` does not return `separator` — it returns
`bullet_point`, because `'-'` is one of the bullet glyphs and the bullet
rule is tested first. -/
theorem classify_sep_counterexample :
    classify_paragraph_type (some "Normal") "----------end" ≠ "separator" ∧
    classify_paragraph_type (some "Normal") "----------end" = "bullet_point" := by
  constructor
  · decide
  · decide

/-- C2 (amended): for every paragraph with non-empty text whose style name
contains none of `heading`, `title`, `subtitle`, `list paragraph`, if the
text starts with ten or more consecutive dashes then the classifier
assigns kind `bullet_point`: the dash is a member of the bullet glyph set,
so rule 5 fires before the separator rule ever gets tested (the
`separator` branch is unreachable for such text). -/
theorem classify_dashes_bullet (style : Option String) (text : String)
    (hne : text ≠ "")
    (h1 : substrB "heading" (pyLower (style.getD "")) = false)
    (h2 : substrB "title" (pyLower (style.getD "")) = false)
    (h3 : substrB "subtitle" (pyLower (style.getD "")) = false)
    (h4 : substrB "list paragraph" (pyLower (style.getD "")) = false)
    (hd : startsWithB (String.mk (List.replicate 10 '-')) text = true) :
    classify_paragraph_type style text = "bullet_point" := by
  have hdash : startsWithB "-" text = true := by
    unfold startsWithB at hd ⊢
    cases htd : text.data with
    | nil => rw [htd] at hd; simp [List.isPrefixOf] at hd
    | cons c cs =>
        rw [htd] at hd
        simp only [List.replicate, List.isPrefixOf] at hd
        have hc : ('-' == c) = true := by
          cases h : ('-' == c) with
          | true => rfl
          | false => rw [h] at hd; simp at hd
        simp [List.isPrefixOf, hc]
  have hbul : (classifyBullets.any (fun p => startsWithB p text)) = true := by
    simp only [classifyBullets, List.any_cons, List.any_nil, hdash]
    simp
  unfold classify_paragraph_type
  rw [if_neg hne]
  simp only [h1, h2, h3, h4, hbul]
  simp

/-- C2 witness: a concrete instantiation of `classify_dashes_bullet`. -/
theorem classify_dashes_bullet_witness :
    ("-----------42" ≠ "" ∧
     substrB "heading" (pyLower ((some "Body Text").getD "")) = false) ∧
    classify_paragraph_type (some "Body Text") "-----------42" = "bullet_point" :=
  ⟨⟨by decide, by decide⟩,
   classify_dashes_bullet (some "Body Text") "-----------42" (by decide)
     (by decide) (by decide) (by decide) (by decide) (by decide)⟩

/-! ## Claim C8 -/

/-- C8: when the LLM insight call raises (modelled by an `Except.error`
outcome caught at lines 459-460), `create_comprehensive_issues` still
returns, and the result is identical to the run with no insights
available: every finalized issue, including its description (hence no
AI Analysis section) and all other fields, is the same. -/
theorem create_ai_failure_isolated (self : AnalyzerState)
    (blocks : List ContentBlock) (e : String) :
    create_comprehensive_issues self (some (Except.error e)) blocks =
      create_comprehensive_issues self none blocks := rfl

/-! ## Claim C9 -/

/-- C9: with the LLM collaborator unavailable (or failing), the
classify+segment+categorize pass is a deterministic function of the
content-block sequence and the extracted-image registry: two analyzer
states agreeing on `extracted_images` produce identical finalized-issue
lists on equal inputs, regardless of any other instance state or of the
distinct ways the insight stage came up empty. -/
theorem create_deterministic (s1 s2 : AnalyzerState)
    (blocks : List ContentBlock)
    (a1 a2 : Option (Except String (List Insight)))
    (himg : s1.extracted_images = s2.extracted_images)
    (h1 : resolveInsights a1 = none) (h2 : resolveInsights a2 = none) :
    create_comprehensive_issues s1 a1 blocks =
      create_comprehensive_issues s2 a2 blocks := by
  unfold create_comprehensive_issues
  rw [himg, h1, h2]

/-- Sample content block used by concrete witnesses. -/
def sampleBlock : ContentBlock :=
  { btype := "text", content := "Fix the carousel arrows on mobile",
    has_image := false, image_ref := none, links := [], style := none,
    alignment := none, level := 0, table_data := none }

/-- Sample link used by concrete witnesses. -/
def sampleLink : Link :=
  { text := "docs", url := "https://example.com/a.pdf", ltype := "document" }

/-- C9 witness: two analyzer states that differ in `content_blocks`,
`extracted_links` and `extracted_tables` but share the (empty) image
registry, one with the collaborator absent and one with it failing. -/
theorem create_deterministic_witness :
    ((AnalyzerState.mk [sampleBlock] [] [sampleLink] []).extracted_images =
       (AnalyzerState.mk [] [] [] []).extracted_images ∧
     resolveInsights none = none ∧
     resolveInsights (some (Except.error "boom")) = none) ∧
    create_comprehensive_issues (AnalyzerState.mk [sampleBlock] [] [sampleLink] [])
        none [sampleBlock] =
      create_comprehensive_issues (AnalyzerState.mk [] [] [] [])
        (some (Except.error "boom")) [sampleBlock] :=
  ⟨⟨rfl, rfl, rfl⟩,
   create_deterministic _ _ [sampleBlock] none (some (Except.error "boom"))
     rfl rfl rfl⟩

/-! ## Branch lemmas for the segmentation loop -/

/-- The image ordinal a block effectively carries into the linking code of
lines 544-546 (`has_image` and a reference present). -/
def refOf (b : ContentBlock) : Option Nat :=
  if b.has_image then b.image_ref else none

/-- Tables a block carries into line 555-556. -/
def tablesOf (b : ContentBlock) : List TableData :=
  match b.table_data with
  | some td => [td]
  | none => []

theorem processBlock_blank (images : List ExtractedImage) (cats : Categories)
    (ai : Option (List Insight)) (st : List FinalIssue × Option IssueInProgress)
    (b : ContentBlock) (h : pyStrip b.content = "") :
    processBlock images cats ai st b = st := by
  unfold processBlock
  rw [if_pos h]

theorem processBlock_heading (images : List ExtractedImage) (cats : Categories)
    (ai : Option (List Insight)) (st : List FinalIssue × Option IssueInProgress)
    (b : ContentBlock) (h0 : pyStrip b.content ≠ "") (h : isHeadingKind b.btype) :
    processBlock images cats ai st b =
      (match st.2 with
       | some ci => (st.1, some (appendContext ci b.content b))
       | none => st) := by
  unfold processBlock
  rw [if_neg h0, if_pos h]

theorem processBlock_separator (images : List ExtractedImage) (cats : Categories)
    (ai : Option (List Insight)) (st : List FinalIssue × Option IssueInProgress)
    (b : ContentBlock) (h0 : pyStrip b.content ≠ "")
    (h1 : ¬ isHeadingKind b.btype) (h2 : b.btype = "separator") :
    processBlock images cats ai st b =
      (match st.2 with
       | some ci => (st.1 ++ [finalize_issue ci cats ai], none)
       | none => st) := by
  unfold processBlock
  rw [if_neg h0, if_neg h1, if_pos h2]

theorem processBlock_boiler (images : List ExtractedImage) (cats : Categories)
    (ai : Option (List Insight)) (st : List FinalIssue × Option IssueInProgress)
    (b : ContentBlock) (h0 : pyStrip b.content ≠ "")
    (h1 : ¬ isHeadingKind b.btype) (h2 : b.btype ≠ "separator")
    (h3 : isShortOrBoiler b.content = true) :
    processBlock images cats ai st b =
      (match st.2 with
       | some ci => (st.1, some (appendContext ci b.content b))
       | none => st) := by
  unfold processBlock
  rw [if_neg h0, if_neg h1, if_neg h2, if_pos h3]

theorem processBlock_main (images : List ExtractedImage) (cats : Categories)
    (ai : Option (List Insight)) (st : List FinalIssue × Option IssueInProgress)
    (b : ContentBlock) (h0 : pyStrip b.content ≠ "")
    (h1 : ¬ isHeadingKind b.btype) (h2 : b.btype ≠ "separator")
    (h3 : isShortOrBoiler b.content = false) :
    processBlock images cats ai st b =
      ((segmentPart cats ai st b b.content).1,
       artifactPart images b (segmentPart cats ai st b b.content).2) := by
  unfold processBlock
  rw [if_neg h0, if_neg h1, if_neg h2, if_neg (by simp [h3])]

theorem segmentPart_eq_new (cats : Categories) (ai : Option (List Insight))
    (st : List FinalIssue × Option IssueInProgress) (b : ContentBlock)
    (content : String) (h : (is_new_issue b content st.2 || st.2.isNone) = true) :
    segmentPart cats ai st b content =
      (st.1 ++ finalizeOpt st.2 cats ai, some (mkNewIssue b content cats)) := by
  unfold segmentPart
  rw [if_pos h]

theorem segmentPart_eq_append (cats : Categories) (ai : Option (List Insight))
    (st : List FinalIssue × Option IssueInProgress) (b : ContentBlock)
    (content : String) (ci : IssueInProgress) (hst : st.2 = some ci)
    (h : (is_new_issue b content st.2 || st.2.isNone) = false) :
    segmentPart cats ai st b content = (st.1, some (appendContext ci content b)) := by
  unfold segmentPart
  rw [if_neg (by simp [h]), hst]

theorem segmentPart_isSome (cats : Categories) (ai : Option (List Insight))
    (st : List FinalIssue × Option IssueInProgress) (b : ContentBlock)
    (content : String) : (segmentPart cats ai st b content).2.isSome := by
  unfold segmentPart
  split
  · simp
  · next h =>
      cases hst : st.2 with
      | none => rw [hst] at h; simp at h
      | some ci => simp

theorem linkImage_some (images : List ExtractedImage) (b : ContentBlock)
    (ci : IssueInProgress) :
    ∃ ci', linkImage images b (some ci) = some ci' ∧
      ci'.title = ci.title ∧ ci'.description_parts = ci.description_parts ∧
      ci'.links = ci.links ∧ ci'.tables = ci.tables ∧
      ci'.content_blocks = ci.content_blocks ∧ ci'.categories = ci.categories ∧
      (ci'.images = ci.images ∨
        ∃ n, refOf b = some n ∧ 0 < n ∧ n ≤ images.length ∧
          ci'.images = ci.images ++ [images.getD (n - 1) default]) := by
  cases href : b.image_ref with
  | none =>
      refine ⟨ci, ?_, rfl, rfl, rfl, rfl, rfl, rfl, Or.inl rfl⟩
      unfold linkImage
      rw [href]
  | some n =>
      by_cases hc : b.has_image = true ∧ 0 < n ∧ n ≤ images.length
      · refine ⟨{ ci with images := ci.images ++ [images.getD (n - 1) default] },
          ?_, rfl, rfl, rfl, rfl, rfl, rfl,
          Or.inr ⟨n, ?_, hc.2.1, hc.2.2, rfl⟩⟩
        · unfold linkImage
          rw [href]
          show (if b.has_image = true ∧ 0 < n ∧ n ≤ images.length then _ else
            some ci) = _
          rw [if_pos hc]
        · unfold refOf
          rw [if_pos hc.1, href]
      · refine ⟨ci, ?_, rfl, rfl, rfl, rfl, rfl, rfl, Or.inl rfl⟩
        unfold linkImage
        rw [href]
        show (if b.has_image = true ∧ 0 < n ∧ n ≤ images.length then _ else
          some ci) = _
        rw [if_neg hc]

theorem addLinks_some (b : ContentBlock) (ci : IssueInProgress) :
    ∃ ci', addLinks b (some ci) = some ci' ∧
      ci'.title = ci.title ∧ ci'.description_parts = ci.description_parts ∧
      ci'.images = ci.images ∧ ci'.tables = ci.tables ∧
      ci'.content_blocks = ci.content_blocks ∧ ci'.categories = ci.categories ∧
      ci'.links = ci.links ++ b.links := by
  unfold addLinks
  by_cases h : b.links.isEmpty
  · rw [if_pos h]
    refine ⟨ci, rfl, rfl, rfl, rfl, rfl, rfl, rfl, ?_⟩
    rw [List.isEmpty_iff.1 h, List.append_nil]
  · rw [if_neg h]
    exact ⟨_, rfl, rfl, rfl, rfl, rfl, rfl, rfl, rfl⟩

theorem addTable_some (b : ContentBlock) (ci : IssueInProgress) :
    ∃ ci', addTable b (some ci) = some ci' ∧
      ci'.title = ci.title ∧ ci'.description_parts = ci.description_parts ∧
      ci'.images = ci.images ∧ ci'.links = ci.links ∧
      ci'.content_blocks = ci.content_blocks ∧ ci'.categories = ci.categories ∧
      ci'.tables = ci.tables ++ tablesOf b := by
  unfold addTable tablesOf
  cases htd : b.table_data with
  | none => exact ⟨ci, rfl, rfl, rfl, rfl, rfl, rfl, rfl, by simp⟩
  | some td => exact ⟨_, rfl, rfl, rfl, rfl, rfl, rfl, rfl, rfl⟩

theorem artifactPart_some (images : List ExtractedImage) (b : ContentBlock)
    (ci : IssueInProgress) :
    ∃ ci', artifactPart images b (some ci) = some ci' ∧
      ci'.title = ci.title ∧ ci'.description_parts = ci.description_parts ∧
      ci'.content_blocks = ci.content_blocks ∧ ci'.categories = ci.categories ∧
      ci'.links = ci.links ++ b.links ∧
      ci'.tables = ci.tables ++ tablesOf b ∧
      (ci'.images = ci.images ∨
        ∃ n, refOf b = some n ∧ 0 < n ∧ n ≤ images.length ∧
          ci'.images = ci.images ++ [images.getD (n - 1) default]) := by
  obtain ⟨c1, e1, t1, d1, l1, tb1, cb1, cat1, img1⟩ := linkImage_some images b ci
  obtain ⟨c2, e2, t2, d2, i2, tb2, cb2, cat2, lk2⟩ := addLinks_some b c1
  obtain ⟨c3, e3, t3, d3, i3, l3, cb3, cat3, tb3⟩ := addTable_some b c2
  refine ⟨c3, ?_, ?_, ?_, ?_, ?_, ?_, ?_, ?_⟩
  · unfold artifactPart
    rw [e1, e2, e3]
  · rw [t3, t2, t1]
  · rw [d3, d2, d1]
  · rw [cb3, cb2, cb1]
  · rw [cat3, cat2, cat1]
  · rw [l3, lk2, l1]
  · rw [tb3, tb2, tb1]
  · rw [i3, i2]
    exact img1

theorem artifactPart_none (images : List ExtractedImage) (b : ContentBlock) :
    artifactPart images b none = none := by
  unfold artifactPart linkImage addLinks addTable
  cases b.image_ref <;> cases b.table_data <;> by_cases h : b.links.isEmpty <;>
    simp [h]

/-! ## More helpers -/

theorem forall₂_frameEq_pair {a b : FinalIssue} {l : List FinalIssue}
    (h : List.Forall₂ frameEq [a, b] l) :
    ∃ x y, l = [x, y] ∧ frameEq a x ∧ frameEq b y := by
  cases h with
  | cons h1 h' =>
      cases h' with
      | cons h2 h'' =>
          cases h''
          exact ⟨_, _, rfl, h1, h2⟩

theorem mkNewIssue_title (b : ContentBlock) (content : String)
    (cats : Categories) (h : content.length ≤ 100) :
    (mkNewIssue b content cats).title = content := by
  unfold mkNewIssue
  dsimp only
  rw [show (decide (content.length > 100)) = false from decide_eq_false (by omega)]
  simp only [Bool.false_eq_true, if_false]
  have hl : content.data.length ≤ 100 := h
  rw [List.take_of_length_le hl]
  show String.mk content.data ++ "" = content
  simp

theorem mkNewIssue_content_blocks (b : ContentBlock) (content : String)
    (cats : Categories) : (mkNewIssue b content cats).content_blocks = [b] := rfl

/-! ## Claim C10 -/

/-- C10: the round-robin distribution of unlinked images (lines 562-574)
only appends to `images`: for every issue, the title, description (whose
Attached Images section was rendered by `finalize_issue` before
distribution, so it never lists a distributed image), links, tables,
categories and content-block count are unchanged, and the original
images are a prefix of the new list. `frameEq` states exactly this
field-by-field frame condition. -/
theorem distribute_frame_effect (issues : List FinalIssue)
    (unlinked : List ExtractedImage) (hne : issues ≠ []) :
    List.Forall₂ frameEq issues (distributeRR issues unlinked) ∧
    (distributeRR issues unlinked).length = issues.length :=
  ⟨distributeRR_frame issues unlinked,
   (distributeRR_frame issues unlinked).length_eq.symm⟩

/-- Sample finalized issue for the C10 witness. -/
def sampleIssue : FinalIssue :=
  { title := "Fix the footer", description := "Fix the footer",
    images := [], links := [], tables := [], categories := [],
    content_blocks := 1 }

/-- Sample extracted image for concrete witnesses. -/
def sampleImage : ExtractedImage :=
  { filename := "image_1.png", path := "extracted_images/image_1.png",
    size := 2048 }

/-- C10 witness: a concrete one-issue list with one unlinked image. -/
theorem distribute_frame_effect_witness :
    ([sampleIssue] ≠ ([] : List FinalIssue)) ∧
    (List.Forall₂ frameEq [sampleIssue] (distributeRR [sampleIssue] [sampleImage]) ∧
     (distributeRR [sampleIssue] [sampleImage]).length = [sampleIssue].length) :=
  ⟨by decide, distribute_frame_effect [sampleIssue] [sampleImage] (by decide)⟩

/-! ## Claim C3 -/

/-- Heading block that carries a hyperlink, for the C3 counterexample. -/
def linkedHeading : ContentBlock :=
  { btype := "heading", content := "Useful link heading",
    has_image := false, image_ref := none, links := [sampleLink],
    style := some "Heading 1", alignment := none, level := 1,
    table_data := none }

/-- C3 counterexample: `sampleBlock` opens an issue; the following heading
element carries a link while that issue is open, yet the finalized issue's
links list is empty — heading/title/section-header blocks hit the
`continue` of line 483 before the link-attachment code of lines 552-553
ever runs, so their links are dropped rather than attached. -/
theorem links_heading_counterexample :
    (create_comprehensive_issues (AnalyzerState.mk [] [] [] []) none
        [sampleBlock, linkedHeading]).map (fun l => l.map (fun i => i.links)) =
      some [[]] := by decide

/-- C3 (amended): an element's links are appended to the open issue's
links exactly when the element reaches the main handling path of the loop
— i.e. it is non-blank, not a heading/title/section_header, not a
separator, and not short/boilerplate context. For such an element the
issue open after processing it (one always is) carries the element's
links as a suffix; links carried by skipped elements are never attached. -/
theorem links_extended_main_path (images : List ExtractedImage)
    (cats : Categories) (ai : Option (List Insight))
    (st : List FinalIssue × Option IssueInProgress) (b : ContentBlock)
    (h0 : pyStrip b.content ≠ "") (h1 : ¬ isHeadingKind b.btype)
    (h2 : b.btype ≠ "separator") (h3 : isShortOrBoiler b.content = false) :
    ∃ ci' pre, (processBlock images cats ai st b).2 = some ci' ∧
      ci'.links = pre ++ b.links := by
  rw [processBlock_main images cats ai st b h0 h1 h2 h3]
  have hs := segmentPart_isSome cats ai st b b.content
  obtain ⟨ci, hci⟩ := Option.isSome_iff_exists.1 hs
  obtain ⟨ci', he, _, _, _, _, hlinks, _, _⟩ := artifactPart_some images b ci
  refine ⟨ci', ci.links, ?_, hlinks⟩
  show artifactPart images b (segmentPart cats ai st b b.content).2 = some ci'
  rw [hci, he]

/-- Text block that carries a hyperlink, for the C3 witness. -/
def linkedTextBlock : ContentBlock :=
  { btype := "text", content := "Check the documentation link",
    has_image := false, image_ref := none, links := [sampleLink],
    style := none, alignment := none, level := 0, table_data := none }

/-- C3 witness: a concrete main-path element with a link. -/
theorem links_extended_main_path_witness :
    (pyStrip linkedTextBlock.content ≠ "" ∧
     ¬ isHeadingKind linkedTextBlock.btype ∧
     linkedTextBlock.btype ≠ "separator" ∧
     isShortOrBoiler linkedTextBlock.content = false) ∧
    (∃ ci' pre,
      (processBlock [] {} none ([], none) linkedTextBlock).2 = some ci' ∧
      ci'.links = pre ++ linkedTextBlock.links) :=
  ⟨⟨by decide, by decide, by decide, by decide⟩,
   links_extended_main_path [] {} none ([], none) linkedTextBlock
     (by decide) (by decide) (by decide) (by decide)⟩

/-! ## Claims C5 and C6: segmentation boundary behaviour -/

/-- A main-path block processed while the open/none state satisfies the
new-issue condition leaves the previous issues finalized and a fresh issue
open whose title and content blocks come from this block. -/
theorem processBlock_opens (images : List ExtractedImage) (cats : Categories)
    (ai : Option (List Insight)) (st : List FinalIssue × Option IssueInProgress)
    (b : ContentBlock)
    (h0 : pyStrip b.content ≠ "") (h1 : ¬ isHeadingKind b.btype)
    (h2 : b.btype ≠ "separator") (h3 : isShortOrBoiler b.content = false)
    (hnew : (is_new_issue b b.content st.2 || st.2.isNone) = true) :
    ∃ ci', processBlock images cats ai st b =
      (st.1 ++ finalizeOpt st.2 cats ai, some ci') ∧
      ci'.title = (mkNewIssue b b.content cats).title ∧
      ci'.content_blocks = [b] := by
  rw [processBlock_main images cats ai st b h0 h1 h2 h3]
  rw [segmentPart_eq_new cats ai st b b.content hnew]
  obtain ⟨ci', he, ht, hd, hcb, hcat, hlk, htb, him⟩ :=
    artifactPart_some images b (mkNewIssue b b.content cats)
  refine ⟨ci', ?_, ht, ?_⟩
  · show (st.1 ++ finalizeOpt st.2 cats ai,
      artifactPart images b (some (mkNewIssue b b.content cats))) = _
    rw [he]
  · rw [hcb, mkNewIssue_content_blocks]

/-- With the `numbered_list` kind the new-issue test always succeeds. -/
theorem is_new_issue_numbered (b : ContentBlock) (content : String)
    (cur : Option IssueInProgress) (h : b.btype = "numbered_list") :
    is_new_issue b content cur = true := by
  unfold is_new_issue
  rw [h]
  simp

/-- C6: for an element sequence `[A, S, B]` where `A` and `B` are kind
`text` with 25-character contents that are not blank and not
short/boilerplate, and `S` is a (non-blank) separator, segmentation
produces exactly two issues: the first is built from exactly block `A`
(title `A.content`, one content block) and the second from exactly block
`B`. -/
theorem separator_boundary_two_issues (st : AnalyzerState)
    (ai : Option (Except String (List Insight))) (A S B : ContentBlock)
    (hAt : A.btype = "text") (hAlen : A.content.length = 25)
    (hAb : isShortOrBoiler A.content = false) (hAs : pyStrip A.content ≠ "")
    (hSt : S.btype = "separator") (hSs : pyStrip S.content ≠ "")
    (hBt : B.btype = "text") (hBlen : B.content.length = 25)
    (hBb : isShortOrBoiler B.content = false) (hBs : pyStrip B.content ≠ "") :
    ∃ j1 j2, create_comprehensive_issues st ai [A, S, B] = some [j1, j2] ∧
      j1.title = A.content ∧ j1.content_blocks = 1 ∧
      j2.title = B.content ∧ j2.content_blocks = 1 := by
  have hA100 : A.content.length ≤ 100 := by omega
  have hB100 : B.content.length ≤ 100 := by omega
  set images := st.extracted_images with himg
  set aiR := resolveInsights ai with hai
  set cats := categorize_content_intelligently [A, S, B] with hcats
  obtain ⟨ciA, hstepA, htA, hcbA⟩ :=
    processBlock_opens images cats aiR ([], none) A hAs
      (by rw [hAt]; decide) (by rw [hAt]; decide) hAb (by simp)
  have hstepA' : processBlock images cats aiR ([], none) A = ([], some ciA) := by
    rw [hstepA]; simp [finalizeOpt]
  have hstepS : processBlock images cats aiR ([], some ciA) S =
      ([finalize_issue ciA cats aiR], none) := by
    rw [processBlock_separator images cats aiR ([], some ciA) S hSs
      (by rw [hSt]; decide) hSt]
    simp
  obtain ⟨ciB, hstepB, htB, hcbB⟩ :=
    processBlock_opens images cats aiR ([finalize_issue ciA cats aiR], none) B hBs
      (by rw [hBt]; decide) (by rw [hBt]; decide) hBb (by simp)
  have hstepB' : processBlock images cats aiR ([finalize_issue ciA cats aiR], none) B =
      ([finalize_issue ciA cats aiR], some ciB) := by
    rw [hstepB]; simp [finalizeOpt]
  have hfold : List.foldl (processBlock images cats aiR) ([], none) [A, S, B] =
      ([finalize_issue ciA cats aiR], some ciB) := by
    simp only [List.foldl_cons, List.foldl_nil]
    rw [hstepA', hstepS, hstepB']
  have htitle1 : (finalize_issue ciA cats aiR).title = A.content := by
    rw [finalize_issue_title, htA, mkNewIssue_title A A.content cats hA100]
  have htitle2 : (finalize_issue ciB cats aiR).title = B.content := by
    rw [finalize_issue_title, htB, mkNewIssue_title B B.content cats hB100]
  have hcount1 : (finalize_issue ciA cats aiR).content_blocks = 1 := by
    rw [finalize_issue_content_blocks, hcbA]; rfl
  have hcount2 : (finalize_issue ciB cats aiR).content_blocks = 1 := by
    rw [finalize_issue_content_blocks, hcbB]; rfl
  unfold create_comprehensive_issues
  rw [← hai, ← hcats, ← himg]
  dsimp only
  rw [hfold]
  dsimp only
  simp only [finalizeOpt, List.cons_append, List.nil_append]
  set issues1 : List FinalIssue :=
    [finalize_issue ciA cats aiR, finalize_issue ciB cats aiR] with hiss
  set linked := issues1.foldl
    (fun acc iss => acc ++ iss.images.map (fun img => img.filename)) [] with hlk
  set unlinked := images.filter (fun img => !(linked.contains img.filename)) with hul
  by_cases hu : unlinked.isEmpty
  · rw [if_pos hu]
    exact ⟨finalize_issue ciA cats aiR, finalize_issue ciB cats aiR, rfl,
      htitle1, hcount1, htitle2, hcount2⟩
  · rw [if_neg hu, if_neg (by rw [hiss]; simp)]
    obtain ⟨x, y, hxy, f1, f2⟩ :=
      forall₂_frameEq_pair (a := finalize_issue ciA cats aiR)
        (b := finalize_issue ciB cats aiR)
        (by rw [← hiss]; exact distributeRR_frame issues1 unlinked)
    obtain ⟨ft1, _, _, _, _, fcb1, _⟩ := f1
    obtain ⟨ft2, _, _, _, _, fcb2, _⟩ := f2
    exact ⟨x, y, by rw [hxy], by rw [ft1, htitle1], by rw [fcb1, hcount1],
      by rw [ft2, htitle2], by rw [fcb2, hcount2]⟩

/-- Blocks for the C6 witness: two 25-character text blocks around a
separator. -/
def witnessBlockA : ContentBlock :=
  { btype := "text", content := "Fix navigation menu quick",
    has_image := false, image_ref := none, links := [], style := none,
    alignment := none, level := 0, table_data := none }

def witnessBlockSep : ContentBlock :=
  { btype := "separator", content := "----------",
    has_image := false, image_ref := none, links := [], style := none,
    alignment := none, level := 0, table_data := none }

def witnessBlockB : ContentBlock :=
  { btype := "text", content := "Update the news feed page",
    has_image := false, image_ref := none, links := [], style := none,
    alignment := none, level := 0, table_data := none }

/-- C6 witness: concrete `[A, SEPARATOR, B]` sequence. -/
theorem separator_boundary_two_issues_witness :
    (witnessBlockA.btype = "text" ∧ witnessBlockA.content.length = 25 ∧
     isShortOrBoiler witnessBlockA.content = false ∧
     pyStrip witnessBlockA.content ≠ "" ∧
     witnessBlockSep.btype = "separator" ∧
     pyStrip witnessBlockSep.content ≠ "" ∧
     witnessBlockB.btype = "text" ∧ witnessBlockB.content.length = 25 ∧
     isShortOrBoiler witnessBlockB.content = false ∧
     pyStrip witnessBlockB.content ≠ "") ∧
    (∃ j1 j2,
      create_comprehensive_issues (AnalyzerState.mk [] [] [] []) none
          [witnessBlockA, witnessBlockSep, witnessBlockB] = some [j1, j2] ∧
      j1.title = witnessBlockA.content ∧ j1.content_blocks = 1 ∧
      j2.title = witnessBlockB.content ∧ j2.content_blocks = 1) :=
  ⟨⟨by decide, by decide, by decide, by decide, by decide, by decide,
    by decide, by decide, by decide, by decide⟩,
   separator_boundary_two_issues (AnalyzerState.mk [] [] [] []) none
     witnessBlockA witnessBlockSep witnessBlockB
     (by decide) (by decide) (by decide) (by decide) (by decide) (by decide)
     (by decide) (by decide) (by decide) (by decide)⟩

/-! ## Claim C5 -/

/-- The literal numbered-list elements of the spec example. -/
def numberedShort1 : ContentBlock :=
  { btype := "numbered_list", content := "1. Do X",
    has_image := false, image_ref := none, links := [], style := none,
    alignment := none, level := 0, table_data := none }

def numberedShort2 : ContentBlock :=
  { btype := "numbered_list", content := "2. Do Y",
    has_image := false, image_ref := none, links := [], style := none,
    alignment := none, level := 0, table_data := none }

/-- C5 counterexample: with the literal texts `"1. Do X"` and `"2. Do Y"`
(7 characters each, not the `>15` the spec asserts), both numbered-list
elements fall into the short-content context rule of line 494 and are
dropped silently (no issue is open), so segmentation yields zero issues —
not two. -/
theorem numbered_short_counterexample :
    create_comprehensive_issues (AnalyzerState.mk [] [] [] []) none
      [numberedShort1, numberedShort2] = some [] := by decide

/-- C5 (amended): for two `numbered_list` elements whose texts really are
long enough to escape the short/boilerplate context rule (and at most 100
characters, so the title is the untruncated text, and not blank),
segmentation yields exactly two issues titled by the two texts. -/
theorem numbered_list_splits (st : AnalyzerState)
    (ai : Option (Except String (List Insight))) (b1 b2 : ContentBlock)
    (h1t : b1.btype = "numbered_list") (h1len : b1.content.length ≤ 100)
    (h1b : isShortOrBoiler b1.content = false) (h1s : pyStrip b1.content ≠ "")
    (h2t : b2.btype = "numbered_list") (h2len : b2.content.length ≤ 100)
    (h2b : isShortOrBoiler b2.content = false) (h2s : pyStrip b2.content ≠ "") :
    ∃ j1 j2, create_comprehensive_issues st ai [b1, b2] = some [j1, j2] ∧
      j1.title = b1.content ∧ j2.title = b2.content := by
  set images := st.extracted_images with himg
  set aiR := resolveInsights ai with hai
  set cats := categorize_content_intelligently [b1, b2] with hcats
  obtain ⟨ci1, hstep1, ht1, hcb1⟩ :=
    processBlock_opens images cats aiR ([], none) b1 h1s
      (by rw [h1t]; decide) (by rw [h1t]; decide) h1b (by simp)
  have hstep1' : processBlock images cats aiR ([], none) b1 = ([], some ci1) := by
    rw [hstep1]; simp [finalizeOpt]
  obtain ⟨ci2, hstep2, ht2, hcb2⟩ :=
    processBlock_opens images cats aiR ([], some ci1) b2 h2s
      (by rw [h2t]; decide) (by rw [h2t]; decide) h2b
      (by rw [is_new_issue_numbered b2 b2.content (([], some ci1) : List FinalIssue × Option IssueInProgress).2 h2t]; simp)
  have hstep2' : processBlock images cats aiR ([], some ci1) b2 =
      ([finalize_issue ci1 cats aiR], some ci2) := by
    rw [hstep2]; simp [finalizeOpt]
  have hfold : List.foldl (processBlock images cats aiR) ([], none) [b1, b2] =
      ([finalize_issue ci1 cats aiR], some ci2) := by
    simp only [List.foldl_cons, List.foldl_nil]
    rw [hstep1', hstep2']
  have htitle1 : (finalize_issue ci1 cats aiR).title = b1.content := by
    rw [finalize_issue_title, ht1, mkNewIssue_title b1 b1.content cats h1len]
  have htitle2 : (finalize_issue ci2 cats aiR).title = b2.content := by
    rw [finalize_issue_title, ht2, mkNewIssue_title b2 b2.content cats h2len]
  unfold create_comprehensive_issues
  rw [← hai, ← hcats, ← himg]
  dsimp only
  rw [hfold]
  dsimp only
  simp only [finalizeOpt, List.cons_append, List.nil_append]
  set issues1 : List FinalIssue :=
    [finalize_issue ci1 cats aiR, finalize_issue ci2 cats aiR] with hiss
  set linked := issues1.foldl
    (fun acc iss => acc ++ iss.images.map (fun img => img.filename)) [] with hlk
  set unlinked := images.filter (fun img => !(linked.contains img.filename)) with hul
  by_cases hu : unlinked.isEmpty
  · rw [if_pos hu]
    exact ⟨finalize_issue ci1 cats aiR, finalize_issue ci2 cats aiR, rfl,
      htitle1, htitle2⟩
  · rw [if_neg hu, if_neg (by rw [hiss]; simp)]
    obtain ⟨x, y, hxy, f1, f2⟩ :=
      forall₂_frameEq_pair (a := finalize_issue ci1 cats aiR)
        (b := finalize_issue ci2 cats aiR)
        (by rw [← hiss]; exact distributeRR_frame issues1 unlinked)
    obtain ⟨ft1, _, _, _, _, _, _⟩ := f1
    obtain ⟨ft2, _, _, _, _, _, _⟩ := f2
    exact ⟨x, y, by rw [hxy], by rw [ft1, htitle1], by rw [ft2, htitle2]⟩

/-- Long-enough numbered elements for the C5 witness. -/
def numberedLong1 : ContentBlock :=
  { btype := "numbered_list", content := "1. Do X across all pages",
    has_image := false, image_ref := none, links := [], style := none,
    alignment := none, level := 0, table_data := none }

def numberedLong2 : ContentBlock :=
  { btype := "numbered_list", content := "2. Do Y on the homepage",
    has_image := false, image_ref := none, links := [], style := none,
    alignment := none, level := 0, table_data := none }

/-- C5 witness: concrete numbered-list elements above the length
threshold split into two issues. -/
theorem numbered_list_splits_witness :
    (numberedLong1.btype = "numbered_list" ∧
     numberedLong1.content.length ≤ 100 ∧
     isShortOrBoiler numberedLong1.content = false ∧
     pyStrip numberedLong1.content ≠ "" ∧
     numberedLong2.btype = "numbered_list" ∧
     numberedLong2.content.length ≤ 100 ∧
     isShortOrBoiler numberedLong2.content = false ∧
     pyStrip numberedLong2.content ≠ "") ∧
    (∃ j1 j2,
      create_comprehensive_issues (AnalyzerState.mk [] [] [] []) none
          [numberedLong1, numberedLong2] = some [j1, j2] ∧
      j1.title = numberedLong1.content ∧ j2.title = numberedLong2.content) :=
  ⟨⟨by decide, by decide, by decide, by decide, by decide, by decide,
    by decide, by decide⟩,
   numbered_list_splits (AnalyzerState.mk [] [] [] []) none
     numberedLong1 numberedLong2
     (by decide) (by decide) (by decide) (by decide) (by decide) (by decide)
     (by decide) (by decide)⟩

/-! ## Claim C7 -/

/-- Blocks that can contribute an issue: non-empty, not
heading/title/section_header, not separator, not short/boilerplate
context. -/
def eligibleBlock (b : ContentBlock) : Bool :=
  !(pyStrip b.content == "") && !(decide (isHeadingKind b.btype)) &&
  !(b.btype == "separator") && !(isShortOrBoiler b.content)

/-- Finalized issues plus the open issue, the quantity bounded by the
eligible-block count. -/
def issueCount (st : List FinalIssue × Option IssueInProgress) : Nat :=
  st.1.length + (if st.2.isSome then 1 else 0)

theorem finalizeOpt_length (cur : Option IssueInProgress) (cats : Categories)
    (ai : Option (List Insight)) :
    (finalizeOpt cur cats ai).length = (if cur.isSome then 1 else 0) := by
  cases cur <;> simp [finalizeOpt]

theorem processBlock_issueCount (images : List ExtractedImage)
    (cats : Categories) (ai : Option (List Insight))
    (st : List FinalIssue × Option IssueInProgress) (b : ContentBlock) :
    issueCount (processBlock images cats ai st b) ≤
      issueCount st + (if eligibleBlock b then 1 else 0) := by
  by_cases h0 : pyStrip b.content = ""
  · rw [processBlock_blank images cats ai st b h0]
    exact Nat.le_add_right _ _
  by_cases h1 : isHeadingKind b.btype
  · rw [processBlock_heading images cats ai st b h0 h1]
    cases hst : st.2 with
    | none => exact Nat.le_add_right _ _
    | some ci =>
        refine le_trans (le_of_eq ?_) (Nat.le_add_right _ _)
        unfold issueCount
        rw [hst]
        simp
  by_cases h2 : b.btype = "separator"
  · rw [processBlock_separator images cats ai st b h0 h1 h2]
    cases hst : st.2 with
    | none => exact Nat.le_add_right _ _
    | some ci =>
        refine le_trans (le_of_eq ?_) (Nat.le_add_right _ _)
        unfold issueCount
        rw [hst]
        simp
  by_cases h3 : isShortOrBoiler b.content
  · rw [processBlock_boiler images cats ai st b h0 h1 h2 h3]
    cases hst : st.2 with
    | none => exact Nat.le_add_right _ _
    | some ci =>
        refine le_trans (le_of_eq ?_) (Nat.le_add_right _ _)
        unfold issueCount
        rw [hst]
        simp
  · have helig : eligibleBlock b = true := by
      unfold eligibleBlock
      rw [decide_eq_false h1]
      have h0' : (pyStrip b.content == "") = false := by
        rw [beq_eq_false_iff_ne]; exact h0
      have h2' : (b.btype == "separator") = false := by
        rw [beq_eq_false_iff_ne]; exact h2
      have h3' : isShortOrBoiler b.content = false := by
        rw [Bool.eq_false_iff]; exact h3
      rw [h0', h2', h3']
      rfl
    rw [processBlock_main images cats ai st b h0 h1 h2
      (by rw [Bool.eq_false_iff]; exact h3), helig, if_pos rfl]
    have hsome := segmentPart_isSome cats ai st b b.content
    obtain ⟨ci, hci⟩ := Option.isSome_iff_exists.1 hsome
    obtain ⟨ci', hart, _, _, _, _, _, _, _⟩ := artifactPart_some images b ci
    have hcnt : issueCount
        ((segmentPart cats ai st b b.content).1,
         artifactPart images b (segmentPart cats ai st b b.content).2) =
        (segmentPart cats ai st b b.content).1.length + 1 := by
      unfold issueCount
      rw [hci, hart]
      simp
    rw [hcnt]
    unfold segmentPart
    split
    · simp only [List.length_append, finalizeOpt_length]
      unfold issueCount
      omega
    · cases hst : st.2 with
      | none => unfold issueCount; rw [hst]; simp
      | some ci2 => unfold issueCount; rw [hst]; simp

theorem foldl_issueCount (images : List ExtractedImage) (cats : Categories)
    (ai : Option (List Insight)) :
    ∀ (blocks : List ContentBlock) (st : List FinalIssue × Option IssueInProgress),
    issueCount (blocks.foldl (processBlock images cats ai) st) ≤
      issueCount st + (blocks.filter eligibleBlock).length := by
  intro blocks
  induction blocks with
  | nil => intro st; simp
  | cons b bs ih =>
      intro st
      rw [List.foldl_cons]
      refine le_trans (ih (processBlock images cats ai st b)) ?_
      have hb := processBlock_issueCount images cats ai st b
      by_cases he : eligibleBlock b
      · rw [List.filter_cons_of_pos he]
        rw [he, if_pos rfl] at hb
        simp only [List.length_cons]
        omega
      · rw [List.filter_cons_of_neg he]
        rw [Bool.eq_false_iff.2 he] at hb
        simp only [if_neg Bool.false_ne_true, Nat.add_zero] at hb
        omega

/-- C7: whenever `create_comprehensive_issues` returns, the number of
finalized issues is at most the number of blocks that are non-empty and
not context-only (not heading/title/section_header, not separator, not
short/boilerplate): every issue is opened exactly at one such block, and
the image distribution never changes the issue count. -/
theorem issue_count_bound (st : AnalyzerState)
    (ai : Option (Except String (List Insight)))
    (blocks : List ContentBlock) (issues : List FinalIssue)
    (h : create_comprehensive_issues st ai blocks = some issues) :
    issues.length ≤ (blocks.filter eligibleBlock).length := by
  unfold create_comprehensive_issues at h
  dsimp only at h
  set aiR := resolveInsights ai with hai
  set cats := categorize_content_intelligently blocks with hcats
  set p := blocks.foldl (processBlock st.extracted_images cats aiR) ([], none)
    with hp
  have hbound : (p.1 ++ finalizeOpt p.2 cats aiR).length ≤
      (blocks.filter eligibleBlock).length := by
    rw [List.length_append, finalizeOpt_length]
    have := foldl_issueCount st.extracted_images cats aiR blocks ([], none)
    rw [← hp] at this
    unfold issueCount at this
    simpa using this
  split at h
  · injection h with h
    rw [← h]
    exact hbound
  · split at h
    · exact absurd h (by simp)
    · injection h with h
      rw [← h]
      rw [(distributeRR_frame _ _).length_eq.symm]
      exact hbound

set_option maxRecDepth 4000 in
/-- C7 witness: a concrete run with one eligible block among context
blocks. -/
theorem issue_count_bound_witness :
    (∃ issues, create_comprehensive_issues (AnalyzerState.mk [] [] [] []) none
        [linkedHeading, sampleBlock, witnessBlockSep] = some issues ∧
      issues.length ≤
        (([linkedHeading, sampleBlock, witnessBlockSep]).filter
          eligibleBlock).length) := by
  refine ⟨(create_comprehensive_issues (AnalyzerState.mk [] [] [] []) none
      [linkedHeading, sampleBlock, witnessBlockSep]).getD [], ?_, ?_⟩
  · decide
  · exact issue_count_bound (AnalyzerState.mk [] [] [] []) none
      [linkedHeading, sampleBlock, witnessBlockSep] _ (by decide)

/-! ## Claim C4 -/

/-- A fresh analyzer instance, as `__init__` (lines 38-46) builds it. -/
def emptyState : AnalyzerState := ⟨[], [], [], []⟩

/-- One extraction step appends to `content_blocks`, `extracted_links`
and `extracted_tables` data that depends only on the element and the
counters, never on the incoming accumulator contents, and leaves
`extracted_images` and the counters independent of the accumulators. -/
theorem extractStep_split (a : AnalyzerState) (k : Nat × Nat)
    (el : RawElement) :
    (extractStep (a, k) el).1.content_blocks =
      a.content_blocks ++ (extractStep (emptyState, k) el).1.content_blocks ∧
    (extractStep (a, k) el).1.extracted_links =
      a.extracted_links ++ (extractStep (emptyState, k) el).1.extracted_links ∧
    (extractStep (a, k) el).1.extracted_tables =
      a.extracted_tables ++ (extractStep (emptyState, k) el).1.extracted_tables ∧
    (extractStep (a, k) el).1.extracted_images = a.extracted_images ∧
    (extractStep (a, k) el).2 = (extractStep (emptyState, k) el).2 := by
  cases el with
  | para rawText style alignment links imageRuns =>
      unfold extractStep
      dsimp only
      by_cases hl : links.isEmpty
      · rw [if_pos hl, if_pos hl]
        split
        · refine ⟨by simp [emptyState], by simp [emptyState], by simp [emptyState], rfl, rfl⟩
        · refine ⟨by simp [emptyState], by simp [emptyState],
            by simp [emptyState], rfl, rfl⟩
      · rw [if_neg hl, if_neg hl]
        split
        · refine ⟨by simp [emptyState], by simp [emptyState], by simp [emptyState], rfl, rfl⟩
        · refine ⟨by simp [emptyState], by simp [emptyState],
            by simp [emptyState], rfl, rfl⟩
  | table rows cols =>
      unfold extractStep
      dsimp only
      refine ⟨by simp [emptyState], by simp [emptyState],
        by simp [emptyState], rfl, rfl⟩

/-- The extraction loop splits into the incoming accumulators plus a
document-determined delta. -/
theorem extract_loop_split : ∀ (doc : List RawElement) (a : AnalyzerState)
    (k : Nat × Nat),
    (doc.foldl extractStep (a, k)).1.content_blocks =
      a.content_blocks ++
        (doc.foldl extractStep (emptyState, k)).1.content_blocks ∧
    (doc.foldl extractStep (a, k)).1.extracted_links =
      a.extracted_links ++
        (doc.foldl extractStep (emptyState, k)).1.extracted_links ∧
    (doc.foldl extractStep (a, k)).1.extracted_tables =
      a.extracted_tables ++
        (doc.foldl extractStep (emptyState, k)).1.extracted_tables ∧
    (doc.foldl extractStep (a, k)).1.extracted_images = a.extracted_images ∧
    (doc.foldl extractStep (a, k)).2 =
      (doc.foldl extractStep (emptyState, k)).2 := by
  intro doc
  induction doc with
  | nil =>
      intro a k
      refine ⟨by simp [emptyState], by simp [emptyState], by simp [emptyState], rfl, rfl⟩
  | cons el rest ih =>
      intro a k
      simp only [List.foldl_cons]
      obtain ⟨scb, slk, stb, sim, sk⟩ := extractStep_split a k el
      obtain ⟨rcb, rlk, rtb, rim, rk⟩ :=
        ih (extractStep (a, k) el).1 (extractStep (a, k) el).2
      obtain ⟨ecb, elk, etb, eim, ek⟩ :=
        ih (extractStep (emptyState, k) el).1 (extractStep (emptyState, k) el).2
      have heta : ∀ s : AnalyzerState × Nat × Nat, (s.1, s.2) = s := by
        intro s; rfl
      rw [heta] at rcb rlk rtb rim rk ecb elk etb eim ek
      have hk2 : rest.foldl extractStep (emptyState, (extractStep (a, k) el).2) =
          rest.foldl extractStep (emptyState, (extractStep (emptyState, k) el).2) := by
        rw [sk]
      refine ⟨?_, ?_, ?_, ?_, ?_⟩
      · rw [rcb, ecb, scb, hk2, List.append_assoc]
      · rw [rlk, elk, slk, hk2, List.append_assoc]
      · rw [rtb, etb, stb, hk2, List.append_assoc]
      · rw [rim, sim]
      · rw [rk, ek, hk2]

/-- C4 counterexample inputs: document A carries a hyperlink and a table,
document B carries a different hyperlink and no table. -/
def linkA : Link := ⟨"A", "https://a.example", "external"⟩

def linkB : Link := ⟨"B", "https://b.example", "external"⟩

def docA : List RawElement :=
  [RawElement.para "Document A paragraph text" none none [linkA] 0,
   RawElement.table [[⟨"cell A", []⟩]] 1]

def docB : List RawElement :=
  [RawElement.para "Document B paragraph text" none none [linkB] 0]

set_option maxRecDepth 4000 in
/-- C4 counterexample: extracting document B on the same analyzer
instance right after document A leaves A's link and A's table in
`extracted_links`/`extracted_tables` — those accumulators are never reset
by `extract_comprehensive_content` (only `content_blocks`, line 192, and
`extracted_images`, line 198, are reassigned), so after B they do not
contain only B's content. -/
theorem extract_not_fresh_counterexample :
    (extract_comprehensive_content
        (extract_comprehensive_content emptyState [] docA) [] docB).extracted_links
      = [linkA, linkB] ∧
    [linkA, linkB] ≠ [linkB] ∧
    (extract_comprehensive_content
        (extract_comprehensive_content emptyState [] docA) [] docB).extracted_tables.length
      = 1 := by
  refine ⟨by decide, by decide, by decide⟩

/-- C4 (amended): per invocation, `extract_comprehensive_content` starts
`content_blocks` and the image registry fresh — their final values depend
only on the document (and supplied registry), not on prior instance state
— while `extracted_links` and `extracted_tables` are appended onto
whatever the instance already held, the appended delta being the
document's own links/tables (what a fresh instance would produce). -/
theorem extract_fresh_and_accumulating (s1 s2 : AnalyzerState)
    (imgs : List ExtractedImage) (doc : List RawElement) :
    (extract_comprehensive_content s1 imgs doc).content_blocks =
      (extract_comprehensive_content s2 imgs doc).content_blocks ∧
    (extract_comprehensive_content s1 imgs doc).extracted_images = imgs ∧
    (extract_comprehensive_content s1 imgs doc).extracted_links =
      s1.extracted_links ++
        (extract_comprehensive_content emptyState imgs doc).extracted_links ∧
    (extract_comprehensive_content s1 imgs doc).extracted_tables =
      s1.extracted_tables ++
        (extract_comprehensive_content emptyState imgs doc).extracted_tables := by
  unfold extract_comprehensive_content
  dsimp only
  obtain ⟨cb1, lk1, tb1, im1, _⟩ := extract_loop_split doc
    { s1 with content_blocks := [], extracted_images := imgs } (0, 0)
  obtain ⟨cb2, lk2, tb2, im2, _⟩ := extract_loop_split doc
    { s2 with content_blocks := [], extracted_images := imgs } (0, 0)
  obtain ⟨cb0, lk0, tb0, im0, _⟩ := extract_loop_split doc
    { emptyState with content_blocks := [], extracted_images := imgs } (0, 0)
  refine ⟨?_, ?_, ?_, ?_⟩
  · rw [cb1, cb2]
  · rw [im1]
  · rw [lk1, lk0]
    simp [emptyState]
  · rw [tb1, tb0]
    simp [emptyState]

/-! ## Claim C1: image conservation -/

/-- Images of the open issue, if any. -/
def curImages : Option IssueInProgress → List ExtractedImage
  | some ci => ci.images
  | none => []

/-- All images attached so far: those in finalized issues plus those on
the open issue. -/
def collectedImages (st : List FinalIssue × Option IssueInProgress) :
    List ExtractedImage :=
  (st.1.map (fun i => i.images)).flatten ++ curImages st.2

theorem segmentPart_collected (cats : Categories) (ai : Option (List Insight))
    (st : List FinalIssue × Option IssueInProgress) (b : ContentBlock)
    (content : String) :
    collectedImages (segmentPart cats ai st b content) = collectedImages st := by
  unfold segmentPart
  split
  · unfold collectedImages
    cases hst : st.2 with
    | none =>
        simp [finalizeOpt, curImages, mkNewIssue, hst]
    | some ci =>
        simp [finalizeOpt, curImages, mkNewIssue, hst,
          finalize_issue_images]
  · next h =>
      cases hst : st.2 with
      | none => rfl
      | some ci =>
          show collectedImages (st.1, some (appendContext ci content b)) =
            collectedImages st
          unfold collectedImages
          rw [hst]
          simp [curImages, appendContext]

theorem processBlock_collected (images : List ExtractedImage)
    (cats : Categories) (ai : Option (List Insight))
    (st : List FinalIssue × Option IssueInProgress) (b : ContentBlock) :
    collectedImages (processBlock images cats ai st b) = collectedImages st ∨
    ∃ n, refOf b = some n ∧ 0 < n ∧ n ≤ images.length ∧
      collectedImages (processBlock images cats ai st b) =
        collectedImages st ++ [images.getD (n - 1) default] := by
  by_cases h0 : pyStrip b.content = ""
  · left; rw [processBlock_blank images cats ai st b h0]
  by_cases h1 : isHeadingKind b.btype
  · left
    rw [processBlock_heading images cats ai st b h0 h1]
    cases hst : st.2 with
    | none => rfl
    | some ci =>
        unfold collectedImages
        rw [hst]
        simp [curImages, appendContext]
  by_cases h2 : b.btype = "separator"
  · left
    rw [processBlock_separator images cats ai st b h0 h1 h2]
    cases hst : st.2 with
    | none => rfl
    | some ci =>
        unfold collectedImages
        rw [hst]
        simp [curImages, finalize_issue_images]
  by_cases h3 : isShortOrBoiler b.content
  · left
    rw [processBlock_boiler images cats ai st b h0 h1 h2 h3]
    cases hst : st.2 with
    | none => rfl
    | some ci =>
        unfold collectedImages
        rw [hst]
        simp [curImages, appendContext]
  · rw [processBlock_main images cats ai st b h0 h1 h2
      (by rw [Bool.eq_false_iff]; exact h3)]
    have hsome := segmentPart_isSome cats ai st b b.content
    obtain ⟨ci, hci⟩ := Option.isSome_iff_exists.1 hsome
    obtain ⟨ci', hart, _, _, _, _, _, _, him⟩ := artifactPart_some images b ci
    have hseg := segmentPart_collected cats ai st b b.content
    have hcoll : collectedImages
        ((segmentPart cats ai st b b.content).1,
         artifactPart images b (segmentPart cats ai st b b.content).2) =
        ((segmentPart cats ai st b b.content).1.map (fun i => i.images)).flatten
          ++ ci'.images := by
      unfold collectedImages
      rw [hci, hart]
      rfl
    have hbase : ((segmentPart cats ai st b b.content).1.map
        (fun i => i.images)).flatten ++ ci.images = collectedImages st := by
      rw [← hseg]
      unfold collectedImages
      rw [hci]
      rfl
    rcases him with hsame | ⟨n, hr, h1n, h2n, happ⟩
    · left
      rw [hcoll, hsame, hbase]
    · right
      refine ⟨n, hr, h1n, h2n, ?_⟩
      rw [hcoll, happ, ← List.append_assoc, hbase]

/-- Loop invariant: the collected images are exactly the registry entries
selected by a sublist of the image ordinals carried by the processed
blocks. -/
theorem seg_loop_images (images : List ExtractedImage) (cats : Categories)
    (ai : Option (List Insight)) :
    ∀ (blocks : List ContentBlock)
      (st : List FinalIssue × Option IssueInProgress) (ns : List Nat),
    (∀ n ∈ ns, 0 < n ∧ n ≤ images.length) →
    collectedImages st = ns.map (fun n => images.getD (n - 1) default) →
    ∃ ns2, List.Sublist ns2 (blocks.filterMap refOf) ∧
      (∀ n ∈ ns2, 0 < n ∧ n ≤ images.length) ∧
      collectedImages (blocks.foldl (processBlock images cats ai) st) =
        (ns ++ ns2).map (fun n => images.getD (n - 1) default) := by
  intro blocks
  induction blocks with
  | nil =>
      intro st ns hrange hcoll
      exact ⟨[], List.Sublist.refl _, by simp, by simpa using hcoll⟩
  | cons b bs ih =>
      intro st ns hrange hcoll
      rw [List.foldl_cons]
      rcases processBlock_collected images cats ai st b with hsame |
        ⟨n, href, h1n, h2n, happ⟩
      · obtain ⟨ns2, hsub, hrange2, hcoll2⟩ :=
          ih (processBlock images cats ai st b) ns hrange (by rw [hsame, hcoll])
        refine ⟨ns2, ?_, hrange2, hcoll2⟩
        cases hr : refOf b with
        | none => simpa [List.filterMap_cons, hr] using hsub
        | some m =>
            simp only [List.filterMap_cons, hr]
            exact hsub.trans (List.sublist_cons_self m _)
      · obtain ⟨ns2, hsub, hrange2, hcoll2⟩ :=
          ih (processBlock images cats ai st b) (ns ++ [n])
            (by intro m hm
                rcases List.mem_append.1 hm with hm | hm
                · exact hrange m hm
                · rw [List.mem_singleton.1 hm]; exact ⟨h1n, h2n⟩)
            (by rw [happ, hcoll, List.map_append]; rfl)
        refine ⟨n :: ns2, ?_, ?_, ?_⟩
        · simp only [List.filterMap_cons, href]
          exact hsub.cons₂ n
        · intro m hm
          rcases List.mem_cons.1 hm with hm | hm
          · rw [hm]; exact ⟨h1n, h2n⟩
          · exact hrange2 m hm
        · rw [hcoll2, List.append_assoc]
          rfl

/-- Total number of images attached across a list of finalized issues. -/
def imgLenSum (l : List FinalIssue) : Nat :=
  (l.map (fun i => i.images.length)).sum

theorem imgLenSum_set : ∀ (l : List FinalIssue) (i : Nat) (iss a : FinalIssue),
    l.get? i = some iss →
    imgLenSum (l.set i a) + iss.images.length = imgLenSum l + a.images.length := by
  intro l
  induction l with
  | nil => intro i iss a h; simp at h
  | cons hd tl ih =>
      intro i iss a h
      cases i with
      | zero =>
          simp only [List.get?] at h
          injection h with h
          subst h
          simp only [List.set, imgLenSum, List.map_cons, List.sum_cons]
          omega
      | succ j =>
          simp only [List.get?] at h
          have := ih j iss a h
          simp only [List.set, imgLenSum, List.map_cons, List.sum_cons] at this ⊢
          omega

theorem distStep_eq (acc : List FinalIssue) (p : Nat × ExtractedImage)
    (iss : FinalIssue) (h : acc.get? (p.1 % acc.length) = some iss) :
    distStep acc p =
      acc.set (p.1 % acc.length) { iss with images := iss.images ++ [p.2] } := by
  unfold distStep
  rw [h]

theorem distStep_spec (acc : List FinalIssue) (p : Nat × ExtractedImage)
    (h : acc ≠ []) :
    imgLenSum (distStep acc p) = imgLenSum acc + 1 ∧
    (distStep acc p).length = acc.length := by
  have hpos : 0 < acc.length := List.length_pos.2 h
  have hlt : p.1 % acc.length < acc.length := Nat.mod_lt _ hpos
  have hget : acc.get? (p.1 % acc.length) = some (acc.get ⟨p.1 % acc.length, hlt⟩) :=
    List.get?_eq_get hlt
  rw [distStep_eq acc p _ hget]
  constructor
  · have h2 := imgLenSum_set acc (p.1 % acc.length) _
      { acc.get ⟨p.1 % acc.length, hlt⟩ with
        images := (acc.get ⟨p.1 % acc.length, hlt⟩).images ++ [p.2] } hget
    simp only [List.length_append, List.length_cons, List.length_nil] at h2
    omega
  · exact List.length_set acc _ _

theorem foldl_distStep_spec : ∀ (l : List (Nat × ExtractedImage))
    (acc : List FinalIssue), acc ≠ [] →
    imgLenSum (l.foldl distStep acc) = imgLenSum acc + l.length ∧
    (l.foldl distStep acc).length = acc.length := by
  intro l
  induction l with
  | nil => intro acc h; simp
  | cons p ps ih =>
      intro acc h
      rw [List.foldl_cons]
      obtain ⟨hs, hl⟩ := distStep_spec acc p h
      have hne : distStep acc p ≠ [] := by
        intro hc
        rw [hc] at hl
        simp at hl
        exact h (List.length_eq_zero.1 hl.symm)
      obtain ⟨ihs, ihl⟩ := ih (distStep acc p) hne
      refine ⟨?_, by rw [ihl, hl]⟩
      rw [ihs, hs]
      simp
      omega

theorem distributeRR_sum (issues : List FinalIssue)
    (unlinked : List ExtractedImage) (h : issues ≠ []) :
    imgLenSum (distributeRR issues unlinked) =
      imgLenSum issues + unlinked.length := by
  unfold distributeRR
  rw [(foldl_distStep_spec unlinked.enum issues h).1, List.enum_length]

theorem length_filter_split {α : Type} (l : List α) (p : α → Bool) :
    (l.filter p).length + (l.filter (fun a => !(p a))).length = l.length := by
  induction l with
  | nil => simp
  | cons hd tl ih =>
      cases hp : p hd <;> simp [List.filter_cons, hp] <;> omega

theorem linked_foldl : ∀ (l : List FinalIssue) (acc : List String),
    l.foldl (fun acc iss => acc ++ iss.images.map (fun img => img.filename)) acc
      = acc ++ ((l.map (fun i => i.images)).flatten).map (fun img => img.filename) := by
  intro l
  induction l with
  | nil => intro acc; simp
  | cons hd tl ih =>
      intro acc
      rw [List.foldl_cons, ih]
      simp [List.append_assoc]

theorem issues1_flatten (l : List FinalIssue) (c : Option IssueInProgress)
    (cats : Categories) (ai : Option (List Insight)) :
    ((l ++ finalizeOpt c cats ai).map (fun i => i.images)).flatten =
      collectedImages (l, c) := by
  cases c with
  | none => simp [finalizeOpt, collectedImages, curImages]
  | some ci =>
      simp [finalizeOpt, collectedImages, curImages, finalize_issue_images]

/-- With pairwise-distinct registry filenames and a duplicate-free
ordinal list, the registry entries whose filename was linked are counted
exactly by the ordinal list. -/
theorem linked_filter_length (images : List ExtractedImage) (ns2 : List Nat)
    (hfile : (images.map (fun i => i.filename)).Nodup)
    (hns : ns2.Nodup)
    (hrange : ∀ n ∈ ns2, 0 < n ∧ n ≤ images.length) :
    (images.filter (fun img =>
      (ns2.map (fun n => (images.getD (n - 1) default).filename)).contains
        img.filename)).length = ns2.length := by
  set F := images.map (fun i => i.filename) with hF
  set g : Nat → String := fun n => (images.getD (n - 1) default).filename with hg
  set linked := ns2.map g with hlinked
  have hgF : ∀ n ∈ ns2, ∃ h : n - 1 < F.length, g n = F.get ⟨n - 1, h⟩ := by
    intro n hn
    have h1 := (hrange n hn).1
    have h2 := (hrange n hn).2
    have hlt : n - 1 < images.length := by omega
    have hltF : n - 1 < F.length := by rw [hF, List.length_map]; exact hlt
    refine ⟨hltF, ?_⟩
    rw [hg]
    dsimp only
    rw [List.getD_eq_getElem images default hlt]
    simp only [List.get_eq_getElem, hF, List.getElem_map]
  have hinj : ∀ x ∈ ns2, ∀ y ∈ ns2, g x = g y → x = y := by
    intro x hx y hy hxy
    obtain ⟨hx1, ex⟩ := hgF x hx
    obtain ⟨hy1, ey⟩ := hgF y hy
    rw [ex, ey] at hxy
    have := (List.Nodup.get_inj_iff hfile).1 hxy
    have hx0 := (hrange x hx).1
    have hy0 := (hrange y hy).1
    have : x - 1 = y - 1 := congrArg Fin.val this
    omega
  have hlinkNodup : linked.Nodup := List.Nodup.map_on hinj hns
  have hsubF : ∀ x ∈ linked, x ∈ F := by
    intro x hx
    rw [hlinked] at hx
    obtain ⟨n, hn, rfl⟩ := List.mem_map.1 hx
    obtain ⟨h1, e1⟩ := hgF n hn
    rw [e1]
    exact List.get_mem F (n - 1) h1
  have hfilterNodup : (F.filter (fun x => linked.contains x)).Nodup :=
    List.Nodup.filter _ hfile
  have hperm : (F.filter (fun x => linked.contains x)).Perm linked := by
    rw [List.perm_ext_iff_of_nodup hfilterNodup hlinkNodup]
    intro a
    rw [List.mem_filter]
    constructor
    · rintro ⟨_, hc⟩
      exact List.elem_iff.1 hc
    · intro ha
      exact ⟨hsubF a ha, List.elem_iff.2 ha⟩
  have hlen1 : (F.filter (fun x => linked.contains x)).length = linked.length :=
    hperm.length_eq
  have hlen2 : (images.filter (fun img => linked.contains img.filename)).length =
      (F.filter (fun x => linked.contains x)).length := by
    rw [hF, List.filter_map]
    rw [List.length_map]
    rfl
  rw [hlen2, hlen1, hlinked, List.length_map]

/-- C1: image conservation. Under the two invariants the extractor
guarantees for its outputs — registry filenames are pairwise distinct
(`extract_images_from_docx` names files `image_1`, `image_2`, ... by
position) and the image ordinals carried by the blocks are pairwise
distinct (the extraction loop's `image_counter` strictly increases) —
whenever `create_comprehensive_issues` returns at least one issue, the
total number of images attached across all returned issues equals the
size of the extracted-image registry: each ordinal-linked image is
attached once during segmentation and every remaining image is attached
exactly once by the round-robin distribution. -/
theorem image_conservation (st : AnalyzerState)
    (ai : Option (Except String (List Insight)))
    (blocks : List ContentBlock) (issues : List FinalIssue)
    (hfile : (st.extracted_images.map (fun i => i.filename)).Nodup)
    (href : (blocks.filterMap refOf).Nodup)
    (h : create_comprehensive_issues st ai blocks = some issues)
    (hne : issues ≠ []) :
    (issues.map (fun i => i.images.length)).sum =
      st.extracted_images.length := by
  unfold create_comprehensive_issues at h
  dsimp only at h
  set images := st.extracted_images with himg
  set aiR := resolveInsights ai with hai
  set cats := categorize_content_intelligently blocks with hcats
  set p := blocks.foldl (processBlock images cats aiR) ([], none) with hp
  set issues1 := p.1 ++ finalizeOpt p.2 cats aiR with hiss1
  obtain ⟨ns2, hsub, hrange, hcoll⟩ :=
    seg_loop_images images cats aiR blocks ([], none) []
      (by simp) (by simp [collectedImages, curImages])
  rw [← hp] at hcoll
  rw [List.nil_append] at hcoll
  have hflat : (issues1.map (fun i => i.images)).flatten = collectedImages p := by
    rw [hiss1]
    exact issues1_flatten p.1 p.2 cats aiR
  have hlinked : issues1.foldl
      (fun acc iss => acc ++ iss.images.map (fun img => img.filename)) [] =
      ns2.map (fun n => (images.getD (n - 1) default).filename) := by
    rw [linked_foldl issues1 [], List.nil_append, hflat, hcoll, List.map_map]
    rfl
  have hns2nodup : ns2.Nodup := List.Nodup.sublist hsub href
  have hposlen := linked_filter_length images ns2 hfile hns2nodup hrange
  have hsum1 : imgLenSum issues1 = ns2.length := by
    have hlen : (issues1.map (fun i => i.images)).flatten.length =
        imgLenSum issues1 := by
      rw [List.length_flatten, List.map_map]
      rfl
    rw [← hlen, hflat, hcoll, List.length_map]
  have hsplit := length_filter_split images
    (fun img =>
      (ns2.map (fun n => (images.getD (n - 1) default).filename)).contains
        img.filename)
  rw [hlinked] at h
  by_cases hu : (images.filter (fun img =>
      !((ns2.map (fun n => (images.getD (n - 1) default).filename)).contains
        img.filename))).isEmpty
  · rw [if_pos hu] at h
    injection h with h
    have hzero : (images.filter (fun img =>
        !((ns2.map (fun n => (images.getD (n - 1) default).filename)).contains
          img.filename))).length = 0 := by
      rw [List.isEmpty_iff.1 hu]
      rfl
    have hgoal : imgLenSum issues = images.length := by
      rw [← h]
      omega
    exact hgoal
  · rw [if_neg hu] at h
    by_cases h1 : issues1.isEmpty
    · rw [if_pos h1] at h
      cases h
    · rw [if_neg h1] at h
      injection h with h
      have hne1 : issues1 ≠ [] := by
        intro hc
        exact h1 (by rw [hc]; rfl)
      have hdist := distributeRR_sum issues1
        (images.filter (fun img =>
          !((ns2.map (fun n => (images.getD (n - 1) default).filename)).contains
            img.filename))) hne1
      have hgoal : imgLenSum issues = images.length := by
        rw [← h, hdist]
        omega
      exact hgoal

/-- Blocks and registry for the C1 witness: one block links image 1 by
ordinal, a second registry image stays unlinked and is distributed. -/
def imageBlock : ContentBlock :=
  { btype := "text", content := "Fix the broken hero image now",
    has_image := true, image_ref := some 1, links := [], style := none,
    alignment := none, level := 0, table_data := none }

def sampleImage2 : ExtractedImage :=
  { filename := "image_2.jpg", path := "extracted_images/image_2.jpg",
    size := 999 }

set_option maxRecDepth 8000 in
/-- C1 witness: one issue, one ordinal-linked image, one distributed
image; the issue ends with both images, matching the registry size 2. -/
theorem image_conservation_witness :
    (((AnalyzerState.mk [] [sampleImage, sampleImage2] [] []).extracted_images.map
        (fun i => i.filename)).Nodup ∧
     (([imageBlock]).filterMap refOf).Nodup ∧
     create_comprehensive_issues
         (AnalyzerState.mk [] [sampleImage, sampleImage2] [] []) none
         [imageBlock] =
       some (create_comprehensive_issues
         (AnalyzerState.mk [] [sampleImage, sampleImage2] [] []) none
         [imageBlock]).iget ∧
     some (create_comprehensive_issues
         (AnalyzerState.mk [] [sampleImage, sampleImage2] [] []) none
         [imageBlock]).iget ≠ some []) ∧
    ((create_comprehensive_issues
        (AnalyzerState.mk [] [sampleImage, sampleImage2] [] []) none
        [imageBlock]).iget.map (fun i => i.images.length)).sum =
      (AnalyzerState.mk [] [sampleImage, sampleImage2] [] []).extracted_images.length := by
  refine ⟨⟨by decide, by decide, by decide, by decide⟩, ?_⟩
  exact image_conservation (AnalyzerState.mk [] [sampleImage, sampleImage2] [] [])
    none [imageBlock] _ (by decide) (by decide) (by decide)
    (by decide)
